import Mathlib

/-!
# Verification of the solo-silo face-identity clustering engine and detection worker

Shallow embedding of the core subsystem of `backend/app/face_cluster.py`,
`backend/app/main.py` (face endpoints and worker supervisor) and
`backend/face_detection_worker.py`, together with theorems settling the
spec claims about it.

Conventions of the embedding:
* JSON dicts with a fixed key vocabulary (entries of `people.json`) become
  structures whose fields are `Option`-valued — `none` models an absent key,
  mirroring Python's `dict.get`.
* The label store (`people.json`) is an association list keyed by cluster id;
  `insertLabel` models `labels[k] = v` (replace or append).
* SQLite tables are lists of rows; `media_files` rows carry only the fields
  the modelled code reads.
* Python floats are modelled as exact rationals `ℚ`; the strict comparison
  `distances[i, j] < threshold` of cosine distances is rendered by the exact
  decision procedure `cosineDistLT` (see its doc comment).
* Worker and supervisor processes become pure state-passing functions; a
  `sys.exit` becomes an early return carrying an exit status.
-/

namespace SoloSilo

/-- One entry of the persisted label store `people.json`
(`face_cluster.py` / `main.py`).  Every field is optional because the code
manipulates these entries as JSON dicts whose keys may be absent. -/
structure LabelEntry where
  label : Option String := none
  name : Option String := none
  hidden : Option Bool := none
  confirmed : Option Bool := none
  rotationOverride : Option Int := none
  confirmedPhotos : Option (List Nat) := none
  profileMediaId : Option Nat := none
  mergedInto : Option String := none
  deriving DecidableEq, Repr

/-- The empty JSON dict `{}`. -/
def LabelEntry.empty : LabelEntry := {}

/-- The label store: one JSON document mapping cluster ids to entries. -/
abbrev Labels := List (String × LabelEntry)

/-- `labels.get(k)` on the label-store dict. -/
def lookupLabel (labels : Labels) (k : String) : Option LabelEntry :=
  (labels.find? (fun e => e.1 == k)).map (fun e => e.2)

/-- `labels[k] = v`: replace the entry for `k` (keys are unique in a
JSON dict, so replacing the first occurrence is replacement), or append
it if absent. -/
def insertLabel : Labels → String → LabelEntry → Labels
  | [], k, v => [(k, v)]
  | e :: rest, k, v => if e.1 == k then (k, v) :: rest else e :: insertLabel rest k v

/-- Field updates of `set_label` (face_cluster.py lines 779-791):
overwrite exactly the fields whose argument is given (`None` arguments
leave their field alone). -/
def setLabelEntry (entry : LabelEntry) (name : Option String) (hidden : Option Bool)
    (confirmed : Option Bool) (rotationOverride : Option Int) : LabelEntry :=
  let entry := match name with
    | some n => { entry with label := some n }
    | none => entry
  let entry := match hidden with
    | some h => { entry with hidden := some h }
    | none => entry
  let entry := match confirmed with
    | some c => { entry with confirmed := some c }
    | none => entry
  match rotationOverride with
    | some r => { entry with rotationOverride := some r }
    | none => entry

/-- The entry `set_label` starts from when `person_id` has no stored
entry: `{"label": "unknown", "hidden": False, "confirmed": False}`. -/
def setLabelDefaultEntry : LabelEntry :=
  { label := some "unknown", hidden := some false, confirmed := some false }

/-- `set_label` (face_cluster.py lines 779-791): read the current entry
for `person_id` (or the default), apply the given field updates, store
the entry back.  The source reads and writes only the label store: it
performs no clustering. -/
def set_label (labels : Labels) (personId : String)
    (name : Option String) (hidden : Option Bool)
    (confirmed : Option Bool) (rotationOverride : Option Int) : Labels :=
  let entry := (lookupLabel labels personId).getD setLabelDefaultEntry
  insertLabel labels personId (setLabelEntry entry name hidden confirmed rotationOverride)

/-! ## Clustering engine (`face_cluster.py`, `cluster_faces`, lines 283-425) -/

/-- A face instance as loaded for clustering (`FaceInstance` dataclass,
face_cluster.py lines 64-69).  Floats are modelled as exact rationals. -/
structure FaceInstanceQ where
  path : String
  bbox : List ℚ
  embedding : List ℚ
  score : ℚ
  deriving DecidableEq, Repr

instance : Inhabited FaceInstanceQ := ⟨{ path := "", bbox := [], embedding := [], score := 0 }⟩

/-- Dot product of two embedding vectors. -/
def dotQ : List ℚ → List ℚ → ℚ
  | [], _ => 0
  | _, [] => 0
  | x :: xs, y :: ys => x * y + dotQ xs ys

/-- Exact decision of `cosine_distance(u, v) < τ`, i.e.
`1 - ⟨u,v⟩ / (‖u‖ ‖v‖) < τ`, for nonzero vectors `u, v`.

`cluster_faces` (lines 330-338) first rescales every embedding by the
positive factor `1 / (‖u‖ + 1e-6)` and then computes
`pdist(…, metric='cosine')`; cosine distance is invariant under positive
scaling of its arguments, so the entries of `distances` are exactly the
cosine distances of the original embeddings.  With `D = ⟨u,v⟩`,
`Q = ⟨u,u⟩·⟨v,v⟩ = (‖u‖‖v‖)²` and `c = 1 - τ`, the comparison
`1 - D/√Q < τ` is equivalent to `D > c·√Q`, which is decided exactly over
`ℚ` by sign analysis and squaring; `cosineDistLT_iff_real` below proves
this encoding against the real-valued formula. -/
def cosineDistLT (u v : List ℚ) (τ : ℚ) : Bool :=
  let D := dotQ u v
  let Q := dotQ u u * dotQ v v
  let c := 1 - τ
  if c < 0 then decide (0 ≤ D) || decide (D ^ 2 < c ^ 2 * Q)
  else decide (0 < D) && decide (c ^ 2 * Q < D ^ 2)

/-- Threshold-band selection of `cluster_faces` (lines 346-355):
`base_threshold = 0.70`, tightened to `0.65` when approval feedback
exists, then loosened to `0.80` when rejection feedback exists (so the
rejection signal wins when both are present). -/
def chooseThreshold (hasApproved hasRejected : Bool) : ℚ :=
  let t : ℚ := 70 / 100
  let t := if hasApproved then 65 / 100 else t
  if hasRejected then 80 / 100 else t

/-- Inner loop of the validity pre-filter of `cluster_faces`
(lines 309-322): the first argument carries `expected_size`
(`none` = Python `None`), instances with an empty embedding are skipped,
`expected_size` is fixed from the first surviving instance, and later
instances are kept exactly when their length matches it. -/
def validFilterGo : Option Nat → List FaceInstanceQ → List FaceInstanceQ
  | _, [] => []
  | exp, inst :: rest =>
    if inst.embedding.isEmpty then validFilterGo exp rest
    else match exp with
      | none => inst :: validFilterGo (some inst.embedding.length) rest
      | some sz =>
        if inst.embedding.length = sz then inst :: validFilterGo (some sz) rest
        else validFilterGo (some sz) rest

/-- `valid_instances` of `cluster_faces` (lines 309-322). -/
def validInstances (instances : List FaceInstanceQ) : List FaceInstanceQ :=
  validFilterGo none instances

/-- The embedding size of the first instance with a nonempty embedding
(the value `expected_size` ends up with). -/
def firstValidEmbSize (instances : List FaceInstanceQ) : Option Nat :=
  (instances.find? (fun i => !i.embedding.isEmpty)).map (fun i => i.embedding.length)

/-- The grouping loop of `cluster_faces` (lines 357-378), parametrised by
the Boolean matrix `near i j = (distances[i, j] < base_threshold)`.
`steps` counts the remaining iterations of the outer `for i in
range(len(valid_instances))` loop (it starts at `n` and the loop index
`i` starts at `0`); `assigned` is the `assigned` set.  An unassigned `i`
seeds a new cluster and absorbs every still-unassigned `j > i` with
`near i j`; clusters are emitted in discovery order and singletons are
kept. -/
def clusterAssignGo (near : Nat → Nat → Bool) (n : Nat) :
    Nat → Nat → List Nat → List (List Nat)
  | 0, _, _ => []
  | steps + 1, i, assigned =>
    if assigned.contains i then clusterAssignGo near n steps (i + 1) assigned
    else
      let grabbed := (List.range n).filter
        (fun j => decide (i < j) && !assigned.contains j && near i j)
      (i :: grabbed) :: clusterAssignGo near n steps (i + 1) (assigned ++ i :: grabbed)

/-- The clusters (as index groups) produced by the loop of
`cluster_faces` lines 357-378 on `n` valid instances. -/
def greedyClusters (near : Nat → Nat → Bool) (n : Nat) : List (List Nat) :=
  clusterAssignGo near n n 0 []

/-- `cluster_faces` up to the grouping step: pre-filter the instances,
then group the survivors by thresholded cosine distance; the result is
the list of clusters, each a list of face instances (the code's
`clusters` dict before per-cluster photo assembly).  An empty input and
an empty survivor set both yield `[]` (lines 285-286 and 325-327). -/
def faceClusterGroups (instances : List FaceInstanceQ) (τ : ℚ) :
    List (List FaceInstanceQ) :=
  if instances.isEmpty then []
  else
    let valid := validInstances instances
    if valid.isEmpty then []
    else
      let near := fun i j =>
        cosineDistLT (valid.getD i default).embedding (valid.getD j default).embedding τ
      (greedyClusters near valid.length).map (fun g => g.map (fun k => valid.getD k default))

/-! ## Cluster query / mutation endpoints (`main.py`)

A cluster record as the endpoints see it: one element of the
`cluster_faces` result list.  Only the fields the modelled code reads are
kept; `photos` is the list of `photo.get("media_id")` values (`none` =
JSON `null`/absent).  `cluster_faces` itself never emits a
`confirmed_photos` key, so records built by it carry
`confirmedPhotos := none`; `apply_labels` can overlay one.  The
`face_cluster_exclusions` table is the list of its
`(cluster_id, media_id)` rows. -/

structure ClusterRec where
  id : String
  photos : List (Option Nat)
  confirmedPhotos : Option (List Nat) := none
  deriving DecidableEq, Repr

/-- The exclusions table `face_cluster_exclusions`. -/
abbrev Exclusions := List (String × Nat)

/-- `SELECT media_id FROM face_cluster_exclusions WHERE cluster_id = ?`. -/
def excludedIdsFor (exclusions : Exclusions) (cid : String) : List Nat :=
  (exclusions.filter (fun e => e.1 == cid)).map (fun e => e.2)

/-- `DELETE` then `INSERT` of one exclusion row
(remove_photo_from_cluster, main.py lines 4386-4393). -/
def addExclusionReplace (exclusions : Exclusions) (cid : String) (mid : Nat) : Exclusions :=
  (exclusions.filter (fun e => !(e.1 == cid && e.2 == mid))) ++ [(cid, mid)]

/-- `INSERT OR IGNORE` of one exclusion row (main.py line 4493). -/
def addExclusionIgnore (exclusions : Exclusions) (cid : String) (mid : Nat) : Exclusions :=
  if exclusions.contains (cid, mid) then exclusions else exclusions ++ [(cid, mid)]

/-- `{p.get('media_id') for p in photos if p.get('media_id')}`: the
truthy media ids of a photo list (`None` and `0` are falsy). -/
def truthyIds (photos : List (Option Nat)) : List Nat :=
  photos.filterMap (fun mid =>
    match mid with
    | some m => if m = 0 then none else some m
    | none => none)

/-- `labels[cid]` exists and has `hidden == True`. -/
def hiddenOf (labels : Labels) (cid : String) : Bool :=
  ((lookupLabel labels cid).getD LabelEntry.empty).hidden.getD false

/-- `if cluster_id not in labels: labels[cluster_id] = {}` followed by
`labels[cluster_id]["hidden"] = True`. -/
def hideCluster (labels : Labels) (cid : String) : Labels :=
  let entry := (lookupLabel labels cid).getD LabelEntry.empty
  insertLabel labels cid { entry with hidden := some true }

/-- First loop of `get_cluster_photos` (main.py lines 4088-4120): walk
the embedding-based cluster's photos, skip missing (`None`/`0`) and
excluded ids, record each added id, and split the responses into the
confirmed-first and unconfirmed buckets.  Returns
`(added_media_ids, confirmed_results, unconfirmed_results)` as id
lists. -/
def gcpFirstLoop (confirmed excluded : List Nat) :
    List (Option Nat) → List Nat × List Nat × List Nat
  | [] => ([], [], [])
  | mid :: rest =>
    match mid with
    | none => gcpFirstLoop confirmed excluded rest
    | some m =>
      if m = 0 then gcpFirstLoop confirmed excluded rest
      else if excluded.contains m then gcpFirstLoop confirmed excluded rest
      else
        let r := gcpFirstLoop confirmed excluded rest
        if confirmed.contains m then (m :: r.1, m :: r.2.1, r.2.2)
        else (m :: r.1, r.2.1, m :: r.2.2)

/-- Second loop of `get_cluster_photos` (main.py lines 4122-4144): add
each confirmed id not already added and not excluded, provided its
`media_files` row exists (`db` is the list of media ids present). -/
def gcpSecondLoop (excluded db : List Nat) : List Nat → List Nat → List Nat
  | _, [] => []
  | added, m :: rest =>
    if added.contains m || excluded.contains m then gcpSecondLoop excluded db added rest
    else
      let r := gcpSecondLoop excluded db (m :: added) rest
      if db.contains m then m :: r else r

/-- The media ids returned by `get_cluster_photos` (main.py lines
4038-4148) for one cluster, given the embedding-based cluster's photo
ids, the label store's `confirmed_photos` for the cluster, the cluster's
exclusions and the media table.  `confirmed.dedup` models the Python
`set(...)` the second loop iterates. -/
def getClusterPhotosIds (clusterPhotos : List (Option Nat))
    (confirmed excluded db : List Nat) : List Nat :=
  let first := gcpFirstLoop confirmed excluded clusterPhotos
  let confirmedResults := first.2.1 ++ gcpSecondLoop excluded db first.1 confirmed.dedup
  confirmedResults ++ first.2.2

/-- The per-cluster photo list of `list_face_clusters` (main.py line
3931): `photos = [p for p in photos if p.get("media_id") not in
excluded_ids]` — note a photo with a missing media id survives this
filter. -/
def listClusterPhotoIds (photos : List (Option Nat)) (excluded : List Nat) :
    List (Option Nat) :=
  photos.filter (fun mid =>
    match mid with
    | some m => !excluded.contains m
    | none => true)

/-- Effective membership of a clusterKey as the spec defines it (and as
`get_cluster_photos` computes it): (algorithmic members ∪
`confirmed_photos`) − excluded ids. -/
def effectiveMembership (clusters : List ClusterRec) (labels : Labels)
    (exclusions : Exclusions) (cid : String) : List Nat :=
  let algIds :=
    match clusters.find? (fun c => c.id == cid) with
    | some c => truthyIds c.photos
    | none => []
  let confirmed := (((lookupLabel labels cid).getD LabelEntry.empty).confirmedPhotos).getD []
  let excludedIds := excludedIdsFor exclusions cid
  ((algIds ++ confirmed).dedup).filter (fun m => !excludedIds.contains m)

/-- Lines 4325-4346 of `check_and_hide_empty_cluster`:
`remaining_photos = (embedding_photo_ids | confirmed_photos) - excluded_ids`
for one cluster record. -/
def remainingAfterExclusions (cluster : ClusterRec) (exclusions : Exclusions)
    (cid : String) : List Nat :=
  (truthyIds cluster.photos ++ cluster.confirmedPhotos.getD []).filter
    (fun m => !(excludedIdsFor exclusions cid).contains m)

/-- `check_and_hide_empty_cluster` (main.py lines 4312-4357): recompute
the clusters, look the cluster up by id, take its truthy embedding photo
ids union its record's `confirmed_photos` (a key `cluster_faces` output
never has!), subtract the cluster's exclusions, and hide the cluster iff
nothing remains.  Returns the updated label store and the hid flag.  The
`clusters` argument stands for the freshly recomputed
`cluster_faces(load_faces_from_db())`. -/
def checkAndHideEmptyCluster (clusters : List ClusterRec)
    (exclusions : Exclusions) (cid : String) (labels : Labels) : Labels × Bool :=
  match clusters.find? (fun c => c.id == cid) with
  | none => (labels, false)
  | some cluster =>
    if (remainingAfterExclusions cluster exclusions cid).isEmpty then
      (hideCluster labels cid, true)
    else (labels, false)

/-- `list.remove(x)`: drop the first occurrence. -/
def removeFirst : List Nat → Nat → List Nat
  | [], _ => []
  | y :: ys, x => if y = x then ys else y :: removeFirst ys x

/-- `cluster_id.startswith("cluster_")` (main.py line 4474), modelled on
the character list of the id. -/
def startsWithClusterTag (cid : String) : Bool :=
  decide (cid.data.take 8 = "cluster_".data)

/-- `remove_photo_from_cluster` (main.py lines 4360-4509): record the
exclusion; if the removed photo was the cluster's profile picture, pick a
replacement profile picture from the remaining non-excluded photos
(`dbByDateDesc` is the media table ordered by `date_taken DESC`), or —
only when the cluster has a label entry — hide the cluster and drop the
profile id when nothing remains; finally, for ids starting with
`"cluster_"`, also exclude the photo from every other cluster containing
it.  No emptiness check happens outside the profile-picture branch.
Returns the updated label store and exclusions table. -/
def removePhotoFromCluster (clusters : List ClusterRec) (exclusions : Exclusions)
    (labels : Labels) (dbByDateDesc : List Nat) (cid : String) (mid : Nat) :
    Labels × Exclusions :=
  let clusterLabels := (lookupLabel labels cid).getD LabelEntry.empty
  let profileMediaId := clusterLabels.profileMediaId
  let exclusions1 := addExclusionReplace exclusions cid mid
  let labels1 :=
    if profileMediaId = some mid then
      let remainingPhotoIds :=
        (match clusters.find? (fun c => c.id == cid) with
         | some cluster => (truthyIds cluster.photos).filter (fun p => p ≠ mid)
         | none => []) ++
        (clusterLabels.confirmedPhotos.getD []).filter (fun p => p ≠ 0 && p ≠ mid)
      let excludedIds := excludedIdsFor exclusions1 cid
      let validPhotoIds := remainingPhotoIds.filter (fun p => !excludedIds.contains p)
      if !validPhotoIds.isEmpty then
        match dbByDateDesc.find? (fun d => validPhotoIds.contains d) with
        | some newPfp => insertLabel labels cid { clusterLabels with profileMediaId := some newPfp }
        | none => labels
      else
        if labels.any (fun e => e.1 == cid) then
          insertLabel labels cid { clusterLabels with hidden := some true, profileMediaId := none }
        else labels
    else labels
  let exclusions2 :=
    if startsWithClusterTag cid then
      clusters.foldl (fun acc c =>
        if c.id == cid then acc
        else if c.photos.contains (some mid) then addExclusionIgnore acc c.id mid
        else acc) exclusions1
    else exclusions1
  (labels1, exclusions2)

/-- `move_photo_to_cluster` (main.py lines 4760-4858): validate both
clusters exist (else a 404, modelled as `none`), append the photo to the
target's `confirmed_photos`, remove its first occurrence from the
source's, record an exclusion in the source, and finally run
`check_and_hide_empty_cluster` on the source cluster. -/
def movePhotoToCluster (clusters : List ClusterRec) (exclusions : Exclusions)
    (labels : Labels) (mid : Nat) (fromCid toCid : String) :
    Option (Labels × Exclusions) :=
  if (clusters.find? (fun c => c.id == toCid)).isNone then none
  else if (clusters.find? (fun c => c.id == fromCid)).isNone then none
  else
    let tEntry := (lookupLabel labels toCid).getD LabelEntry.empty
    let tConf := tEntry.confirmedPhotos.getD []
    let tConf := if tConf.contains mid then tConf else tConf ++ [mid]
    let labels1 := insertLabel labels toCid { tEntry with confirmedPhotos := some tConf }
    let labels2 :=
      match lookupLabel labels1 fromCid with
      | some fEntry =>
        match fEntry.confirmedPhotos with
        | some fConf =>
          if fConf.contains mid then
            insertLabel labels1 fromCid
              { fEntry with confirmedPhotos := some (removeFirst fConf mid) }
          else labels1
        | none => labels1
      | none => labels1
    let exclusions1 := addExclusionReplace exclusions fromCid mid
    some ((checkAndHideEmptyCluster clusters exclusions1 fromCid labels2).1, exclusions1)

/-- One iteration of the `list_face_clusters` loop (main.py lines
3913-3945) restricted to its label-store effect: filter the cluster's
photos by its exclusions, and when no photo remains and the cluster is
not already hidden, persist `hidden = True` for it. -/
def listAutoHideStep (exclusions : Exclusions) (labels : Labels) (c : ClusterRec) : Labels :=
  let photos := listClusterPhotoIds c.photos (excludedIdsFor exclusions c.id)
  let isHidden := hiddenOf labels c.id
  if photos.length = 0 && !isHidden then hideCluster labels c.id else labels

/-- Label-store effect of a full `list_face_clusters` pass (main.py lines
3905-3953): the lazy auto-hide applied to every listed cluster in
order. -/
def listFaceClustersAutoHide (clusters : List ClusterRec) (exclusions : Exclusions)
    (labels : Labels) : Labels :=
  clusters.foldl (listAutoHideStep exclusions) labels

/-! ## Detection worker (`face_detection_worker.py`, `detect_faces_worker`)

The worker walks the unattempted media rows in ascending id order,
running extraction per item.  The extraction capability is the opaque
external collaborator, modelled as an oracle `outcome : Nat →
DetectOutcome` giving each media id's behaviour; `ok n` is a successful
run returning `n` faces (each with an embedding), `timeout` is
`detect_faces_with_timeout` raising `TimeoutError`, `error` any other
exception, `missing` a path that fails the `os.path.exists` check.
Distinct media rows are assumed to have distinct paths, so the
`last_failed_file` comparison (by path, lines 316 and 347) is modelled by
media id. -/

/-- Behaviour of the extraction capability on one item. -/
inductive DetectOutcome where
  | ok (nFaces : Nat)
  | timeout
  | error
  | missing
  deriving DecidableEq, Repr

/-- One `media_files` row, restricted to the fields the worker reads
(the id and the durable `face_detection_attempted` marker); only rows of
eligible still-image type are modelled. -/
structure MediaRow where
  id : Nat
  attempted : Bool
  deriving DecidableEq, Repr

/-- `UPDATE media_files SET face_detection_attempted = 1 WHERE id = ?`
(`mark_image_processed`, worker lines 125-135). -/
def markAttempted (tbl : List MediaRow) (mid : Nat) : List MediaRow :=
  tbl.map (fun r => if r.id = mid then { r with attempted := true } else r)

/-- Insert into an ascending list. -/
def insertAsc (x : Nat) : List Nat → List Nat
  | [] => [x]
  | y :: ys => if x ≤ y then x :: y :: ys else y :: insertAsc x ys

/-- Ascending insertion sort (models SQL `ORDER BY id`). -/
def sortAsc : List Nat → List Nat
  | [] => []
  | x :: xs => insertAsc x (sortAsc xs)

/-- `SELECT id FROM media_files WHERE face_detection_attempted = 0 …
ORDER BY id` (worker lines 246-252). -/
def selectUnprocessed (tbl : List MediaRow) : List Nat :=
  sortAsc ((tbl.filter (fun r => !r.attempted)).map (fun r => r.id))

/-- How a worker run ended: `complete` is the final status JSON,
`restarting` the voluntary `sys.exit(0)` after a first per-item timeout
(lines 329-344). -/
inductive WorkerStatus where
  | complete
  | restarting
  deriving DecidableEq, Repr

/-- Observable outcome of one worker process run. `reportedProcessed` is
the `processed` field of the final status JSON
(`already_processed + processed_count`); `rebuilds` counts
`rebuild_clustering_cache` calls; `processedIds` lists the handled items
in order. -/
structure WorkerResult where
  status : WorkerStatus
  reportedProcessed : Nat
  table : List MediaRow
  rebuilds : Nat
  processedIds : List Nat
  skipped : Nat
  deriving DecidableEq, Repr

/-- The per-item loop of `detect_faces_worker` (worker lines 270-440),
with `RESTART_THRESHOLD = 5`.  Arguments after the oracle and
`already` (the count of rows already attempted when the run started):
the remaining items, the table, `processed_count`,
`total_faces_detected`, `skipped_count`, `last_failed_file`, the rebuild
count so far and the handled items so far.  Every branch durably marks
the current item; a first timeout marks it and exits with `restarting`;
reaching the threshold rebuilds the clustering cache, resets the
counters and *continues in-process* (lines 406-428: "Reset counter and
continue processing (don't exit)"); the end of the backlog performs a
final rebuild and reports `already + processed_count`. -/
def workerLoop (outcome : Nat → DetectOutcome) (already : Nat) :
    List Nat → List MediaRow → Nat → Nat → Nat → Option Nat → Nat → List Nat → WorkerResult
  | [], tbl, pc, _faces, skipped, _lastFailed, rebuilds, acc =>
    { status := .complete, reportedProcessed := already + pc, table := tbl,
      rebuilds := rebuilds + 1, processedIds := acc, skipped := skipped }
  | mid :: rest, tbl, pc, faces, skipped, lastFailed, rebuilds, acc =>
    match outcome mid with
    | .missing =>
      workerLoop outcome already rest (markAttempted tbl mid) (pc + 1) faces
        (skipped + 1) none rebuilds (acc ++ [mid])
    | .timeout =>
      if lastFailed = some mid then
        workerLoop outcome already rest (markAttempted tbl mid) (pc + 1) faces
          (skipped + 1) none rebuilds (acc ++ [mid])
      else
        { status := .restarting, reportedProcessed := already + (pc + 1),
          table := markAttempted tbl mid, rebuilds := rebuilds,
          processedIds := acc ++ [mid], skipped := skipped }
    | .error =>
      if lastFailed = some mid then
        workerLoop outcome already rest (markAttempted tbl mid) (pc + 1) faces
          (skipped + 1) none rebuilds (acc ++ [mid])
      else
        workerLoop outcome already rest (markAttempted tbl mid) (pc + 1) faces
          (skipped + 1) (some mid) rebuilds (acc ++ [mid])
    | .ok n =>
      if pc + 1 ≥ 5 then
        workerLoop outcome already rest (markAttempted tbl mid) 0 0
          skipped none (rebuilds + 1) (acc ++ [mid])
      else
        workerLoop outcome already rest (markAttempted tbl mid) (pc + 1) (faces + n)
          skipped none rebuilds (acc ++ [mid])

/-- One full run of `detect_faces_worker` (worker lines 205-485): count
the already-attempted rows, select the unattempted backlog in ascending
id order, exit immediately with `complete` when it is empty (lines
261-265, no cache rebuild), else run the per-item loop. -/
def workerRun (tbl : List MediaRow) (outcome : Nat → DetectOutcome) : WorkerResult :=
  let already := (tbl.filter (fun r => r.attempted)).length
  let unprocessed := selectUnprocessed tbl
  if unprocessed.isEmpty then
    { status := .complete, reportedProcessed := already, table := tbl,
      rebuilds := 0, processedIds := [], skipped := 0 }
  else workerLoop outcome already unprocessed tbl 0 0 0 none 0 []

/-- A worker run killed from outside after `budget` handled items: the
same per-item loop, stopping (table as-is) once the budget is exhausted.
Marks are durable per item, so everything handled before the kill stays
marked. -/
def workerKillGo (outcome : Nat → DetectOutcome) :
    Nat → List Nat → List MediaRow → Option Nat → List MediaRow
  | 0, _, tbl, _ => tbl
  | _ + 1, [], tbl, _ => tbl
  | budget + 1, mid :: rest, tbl, lastFailed =>
    match outcome mid with
    | .missing => workerKillGo outcome budget rest (markAttempted tbl mid) none
    | .timeout =>
      if lastFailed = some mid then workerKillGo outcome budget rest (markAttempted tbl mid) none
      else markAttempted tbl mid
    | .error =>
      if lastFailed = some mid then workerKillGo outcome budget rest (markAttempted tbl mid) none
      else workerKillGo outcome budget rest (markAttempted tbl mid) (some mid)
    | .ok _ => workerKillGo outcome budget rest (markAttempted tbl mid) none

/-- The table left behind by a worker run killed after `k` handled
items. -/
def workerRunKilled (tbl : List MediaRow) (outcome : Nat → DetectOutcome) (k : Nat) :
    List MediaRow :=
  workerKillGo outcome k (selectUnprocessed tbl) tbl none

/-! ## Worker supervisor (`main.py`, `run_worker`, lines 885-954)

Each launch of the worker subprocess is abstracted as an oracle
`launch : Nat → Int × Nat` giving, for the i-th launch, the subprocess
exit code and the number of unattempted eligible rows counted *after*
that launch (lines 917-927).  The loop body classifies the pair exactly
as lines 929-950 do. -/

/-- The `while restart_count < max_restarts` loop of `run_worker`: the
fuel is `max_restarts − restart_count`, so fuel `0` is the loop guard
failing, after which the function sets the flag and returns `0` (lines
952-954).  Returns the supervisor's return code and the number of
launches performed. -/
def supGo (launch : Nat → Int × Nat) : Nat → Nat → Int × Nat
  | 0, idx => (0, idx)
  | fuel + 1, idx =>
    if (launch idx).1 = 0 ∨ 0 < (launch idx).2 then
      if (launch idx).2 = 0 then (0, idx + 1)
      else supGo launch fuel (idx + 1)
    else ((launch idx).1, idx + 1)

/-- `run_worker` with its hard cap `max_restarts = 100` (line 888). -/
def runWorkerSupervisor (launch : Nat → Int × Nat) : Int × Nat :=
  supGo launch 100 0

/-- The indexing status the caller of `run_worker` exposes (main.py
lines 959-981): `"complete"` exactly when the returned code is `0`,
`"error"` otherwise. -/
def supervisorStatus (rc : Int) : String :=
  if rc = 0 then "complete" else "error"

/-! ## Concrete fixtures used by counterexamples and witnesses -/

/-- Three instances in the plane: `a` and `b` at cosine distance `0.2`,
`b` and `c` at `0.4`, but `a` and `c` at `1.0`. -/
def instA : FaceInstanceQ := { path := "a.jpg", bbox := [], embedding := [5, 0], score := 1 }

def instB : FaceInstanceQ := { path := "b.jpg", bbox := [], embedding := [4, 3], score := 1 }

def instC : FaceInstanceQ := { path := "c.jpg", bbox := [], embedding := [0, 5], score := 1 }

/-- Four equal-norm integer embeddings (norm² = 625) whose exact cosine
distances are `d(w,x) = 0.72`, `d(w,y) = d(w,z) = 0.832`,
`d(x,y) = d(x,z) = 0.4`, `d(y,z) = 1.28`. -/
def instW : FaceInstanceQ := { path := "w.jpg", bbox := [], embedding := [7, 0, 24, 0], score := 1 }

def instX : FaceInstanceQ := { path := "x.jpg", bbox := [], embedding := [25, 0, 0, 0], score := 1 }

def instY : FaceInstanceQ := { path := "y.jpg", bbox := [], embedding := [15, 20, 0, 0], score := 1 }

def instZ : FaceInstanceQ := { path := "z.jpg", bbox := [], embedding := [15, -20, 0, 0], score := 1 }

/-- A ten-item backlog, media ids 1..10, nothing attempted yet. -/
def backlogTen : List MediaRow :=
  (List.range 10).map (fun k => { id := k + 1, attempted := false })

/-- Extraction succeeds everywhere with one face. -/
def outcomeAllOk : Nat → DetectOutcome := fun _ => .ok 1

/-- Extraction times out on item 7 and succeeds elsewhere. -/
def outcomeTimeout7 : Nat → DetectOutcome := fun n => if n = 7 then .timeout else .ok 1

/-- A worker that always crashes (exit code 1) with five items left. -/
def crashingLaunch : Nat → Int × Nat := fun _ => (1, 5)

/-- A single-photo cluster as produced by `cluster_faces`. -/
def soloCluster : ClusterRec := { id := "person_0", photos := [some 1] }

/-- A label store confirming item 5 into `person_0`. -/
def confOnlyLabels : Labels := [("person_0", { confirmedPhotos := some [5] })]

/-- Instances of embedding sizes 1, 2 and 2. -/
def dimInstA : FaceInstanceQ := { path := "a.jpg", bbox := [], embedding := [1], score := 1 }

def dimInstB : FaceInstanceQ := { path := "b.jpg", bbox := [], embedding := [2, 3], score := 1 }

def dimInstC : FaceInstanceQ := { path := "c.jpg", bbox := [], embedding := [4, 5], score := 1 }

/-- The unattempted ids of a table, before sorting. -/
def unattemptedIds (tbl : List MediaRow) : List Nat :=
  (tbl.filter (fun r => !r.attempted)).map (fun r => r.id)

/-- A three-row table for the C8 witness. -/
def wTbl3 : List MediaRow :=
  [{ id := 1, attempted := false }, { id := 2, attempted := false },
   { id := 3, attempted := false }]


/-! ## Label-store lemmas -/

theorem lookupLabel_insertLabel_self (labels : Labels) (k : String) (v : LabelEntry) :
    lookupLabel (insertLabel labels k v) k = some v := by
  induction labels with
  | nil => simp [insertLabel, lookupLabel]
  | cons e rest ih =>
    by_cases h : e.1 == k
    · simp [insertLabel, h, lookupLabel]
    · simp only [insertLabel, h, Bool.false_eq_true, if_false]
      simpa [lookupLabel, List.find?, h] using ih

theorem lookupLabel_insertLabel_ne (labels : Labels) (k k' : String) (v : LabelEntry)
    (hne : k' ≠ k) :
    lookupLabel (insertLabel labels k v) k' = lookupLabel labels k' := by
  have hkk : (k == k') = false := by
    simp only [beq_eq_false_iff_ne, ne_eq]
    exact fun h => hne h.symm
  induction labels with
  | nil => simp [insertLabel, lookupLabel, List.find?, hkk]
  | cons e rest ih =>
    by_cases h : e.1 == k
    · have he : e.1 = k := by simpa [beq_iff_eq] using h
      have he' : (e.1 == k') = false := by
        simp only [beq_eq_false_iff_ne, ne_eq, he]
        exact fun hh => hne hh.symm
      simp [insertLabel, h, lookupLabel, List.find?, hkk, he']
    · by_cases h' : e.1 == k'
      · simp [insertLabel, h, lookupLabel, List.find?, h']
      · simp only [insertLabel, h, Bool.false_eq_true, if_false]
        simpa [lookupLabel, List.find?, h'] using ih

/-- Claim C10: `set_label` with any subset of its optional arguments
updates only the corresponding fields of that person's entry, leaves the
entry's other fields (`name`, `confirmed_photos`, `profile_media_id`,
`merged_into`) and every other person's entry unchanged, and — being a
pure label-store transformation — performs no re-clustering. -/
theorem C10_set_label_frame :
    (∀ (labels : Labels) (personId : String) (name : Option String)
        (hidden : Option Bool) (confirmed : Option Bool)
        (rotationOverride : Option Int) (q : String), q ≠ personId →
      lookupLabel (set_label labels personId name hidden confirmed rotationOverride) q
        = lookupLabel labels q) ∧
    (∀ (labels : Labels) (personId : String) (name : Option String)
        (hidden : Option Bool) (confirmed : Option Bool)
        (rotationOverride : Option Int) (e : LabelEntry),
      lookupLabel labels personId = some e →
      lookupLabel (set_label labels personId name hidden confirmed rotationOverride) personId
        = some (setLabelEntry e name hidden confirmed rotationOverride)) ∧
    (∀ (e : LabelEntry) (name : Option String) (hidden : Option Bool)
        (confirmed : Option Bool) (rotationOverride : Option Int),
      (setLabelEntry e name hidden confirmed rotationOverride).name = e.name ∧
      (setLabelEntry e name hidden confirmed rotationOverride).confirmedPhotos
        = e.confirmedPhotos ∧
      (setLabelEntry e name hidden confirmed rotationOverride).profileMediaId
        = e.profileMediaId ∧
      (setLabelEntry e name hidden confirmed rotationOverride).mergedInto = e.mergedInto ∧
      (name = none →
        (setLabelEntry e name hidden confirmed rotationOverride).label = e.label) ∧
      (hidden = none →
        (setLabelEntry e name hidden confirmed rotationOverride).hidden = e.hidden) ∧
      (confirmed = none →
        (setLabelEntry e name hidden confirmed rotationOverride).confirmed = e.confirmed) ∧
      (rotationOverride = none →
        (setLabelEntry e name hidden confirmed rotationOverride).rotationOverride
          = e.rotationOverride) ∧
      (∀ v, name = some v →
        (setLabelEntry e name hidden confirmed rotationOverride).label = some v) ∧
      (∀ v, hidden = some v →
        (setLabelEntry e name hidden confirmed rotationOverride).hidden = some v) ∧
      (∀ v, confirmed = some v →
        (setLabelEntry e name hidden confirmed rotationOverride).confirmed = some v) ∧
      (∀ v, rotationOverride = some v →
        (setLabelEntry e name hidden confirmed rotationOverride).rotationOverride
          = some v)) := by
  refine ⟨?_, ?_, ?_⟩
  · intro labels personId name hidden confirmed rotationOverride q hq
    unfold set_label
    exact lookupLabel_insertLabel_ne _ _ _ _ hq
  · intro labels personId name hidden confirmed rotationOverride e he
    unfold set_label
    rw [he]
    exact lookupLabel_insertLabel_self _ _ _
  · intro e name hidden confirmed rotationOverride
    cases name <;> cases hidden <;> cases confirmed <;> cases rotationOverride <;>
      simp [setLabelEntry]

/-- Witness for C10 at concrete inputs. -/
theorem C10_set_label_frame_witness :
    lookupLabel
      (set_label [("p", setLabelDefaultEntry)] "p" (some "Alice") none none none) "q"
      = lookupLabel [("p", setLabelDefaultEntry)] "q" :=
  C10_set_label_frame.1 [("p", setLabelDefaultEntry)] "p" (some "Alice") none none none
    "q" (by decide)

/-! ## Soundness of the exact cosine-distance comparison -/

theorem mul_sqrt_lt_iff (c D q : ℝ) (hq : 0 < q) :
    c * q < D ↔ (if c < 0 then (0 ≤ D ∨ D ^ 2 < c ^ 2 * q ^ 2)
                 else (0 < D ∧ c ^ 2 * q ^ 2 < D ^ 2)) := by
  by_cases hc : c < 0
  · rw [if_pos hc]
    constructor
    · intro hlt
      by_cases hD : 0 ≤ D
      · exact Or.inl hD
      · push_neg at hD
        right
        nlinarith [mul_pos (neg_pos.mpr hD) (sub_pos.mpr hlt)]
    · intro h
      rcases h with hD | hsq
      · nlinarith [mul_neg_of_neg_of_pos hc hq]
      · by_cases hD : 0 ≤ D
        · nlinarith [mul_neg_of_neg_of_pos hc hq]
        · push_neg at hD
          nlinarith [mul_neg_of_neg_of_pos hc hq]
  · rw [if_neg hc]
    push_neg at hc
    constructor
    · intro hlt
      have hD : 0 < D := lt_of_le_of_lt (mul_nonneg hc hq.le) hlt
      refine ⟨hD, ?_⟩
      nlinarith [mul_nonneg hc hq.le]
    · rintro ⟨hD, hsq⟩
      nlinarith [mul_nonneg hc hq.le]

/-- The exact decision procedure `cosineDistLT` agrees with the
real-valued comparison `1 - ⟨u,v⟩ / (‖u‖ ‖v‖) < τ` for every pair of
vectors with positive squared norm. -/
theorem cosineDistLT_iff_real (u v : List ℚ) (τ : ℚ)
    (hu : 0 < dotQ u u) (hv : 0 < dotQ v v) :
    cosineDistLT u v τ = true ↔
      1 - ((dotQ u v : ℚ) : ℝ) /
          (Real.sqrt ((dotQ u u : ℚ) : ℝ) * Real.sqrt ((dotQ v v : ℚ) : ℝ))
        < ((τ : ℚ) : ℝ) := by
  have hQu : (0 : ℝ) < ((dotQ u u : ℚ) : ℝ) := by exact_mod_cast hu
  have hQv : (0 : ℝ) < ((dotQ v v : ℚ) : ℝ) := by exact_mod_cast hv
  have hqpos : 0 < Real.sqrt ((dotQ u u : ℚ) : ℝ) * Real.sqrt ((dotQ v v : ℚ) : ℝ) :=
    mul_pos (Real.sqrt_pos.mpr hQu) (Real.sqrt_pos.mpr hQv)
  have hq2 : (Real.sqrt ((dotQ u u : ℚ) : ℝ) * Real.sqrt ((dotQ v v : ℚ) : ℝ)) ^ 2
      = ((dotQ u u : ℚ) : ℝ) * ((dotQ v v : ℚ) : ℝ) := by
    rw [mul_pow, Real.sq_sqrt hQu.le, Real.sq_sqrt hQv.le]
  have h1 : (1 - ((dotQ u v : ℚ) : ℝ) /
        (Real.sqrt ((dotQ u u : ℚ) : ℝ) * Real.sqrt ((dotQ v v : ℚ) : ℝ))
      < ((τ : ℚ) : ℝ)) ↔
      ((1 : ℝ) - ((τ : ℚ) : ℝ)) *
          (Real.sqrt ((dotQ u u : ℚ) : ℝ) * Real.sqrt ((dotQ v v : ℚ) : ℝ))
        < ((dotQ u v : ℚ) : ℝ) := by
    rw [sub_lt_comm, lt_div_iff₀ hqpos]
  rw [h1, mul_sqrt_lt_iff _ _ _ hqpos, hq2]
  by_cases hc : (1 - τ : ℚ) < 0
  · have hcR : ((1 : ℝ) - ((τ : ℚ) : ℝ)) < 0 := by exact_mod_cast hc
    rw [if_pos hcR]
    simp only [cosineDistLT, if_pos hc, Bool.or_eq_true, decide_eq_true_eq]
    constructor
    · intro h
      rcases h with h | h
      · exact Or.inl (by exact_mod_cast h)
      · exact Or.inr (by exact_mod_cast h)
    · intro h
      rcases h with h | h
      · exact Or.inl (by exact_mod_cast h)
      · exact Or.inr (by exact_mod_cast h)
  · have hcR : ¬((1 : ℝ) - ((τ : ℚ) : ℝ)) < 0 := by exact_mod_cast hc
    rw [if_neg hcR]
    simp only [cosineDistLT, if_neg hc, Bool.and_eq_true, decide_eq_true_eq]
    constructor
    · intro h
      exact ⟨by exact_mod_cast h.1, by exact_mod_cast h.2⟩
    · intro h
      exact ⟨by exact_mod_cast h.1, by exact_mod_cast h.2⟩

/-! ## Counterexample theorems -/

/-- Counterexample to claim C1 as stated: for a cluster whose only
member is the confirmed item 5, `list_face_clusters` computes its
visible photo list (and `photo_count`) from the algorithmic members
minus exclusions only — the confirmed item is missing, so the
"cluster-photo query operations" do *not* all return
(algorithmic ∪ confirmed) − excluded.  (`get_cluster_photos` does.) -/
theorem C1_counterexample :
    effectiveMembership [{ id := "person_0", photos := [] }] confOnlyLabels [] "person_0"
      = [5] ∧
    listClusterPhotoIds ([] : List (Option Nat)) (excludedIdsFor [] "person_0") = [] ∧
    getClusterPhotosIds [] [5] [] [5] = [5] := by
  decide

/-- Counterexample to claim C2: instance `c` is within τ = 0.70 of the
already-grouped instance `b` (distance 0.4), yet the code leaves `c` a
singleton because its distance to the cluster's *seed* `a` is 1.0 — the
grouping is not single-link transitive absorption. -/
theorem C2_counterexample :
    cosineDistLT instB.embedding instC.embedding (70 / 100) = true ∧
    faceClusterGroups [instA, instB, instC] (70 / 100) = [[instA, instB], [instC]] ∧
    ∀ g ∈ faceClusterGroups [instA, instB, instC] (70 / 100), ¬(instB ∈ g ∧ instC ∈ g) := by
  have h2 : faceClusterGroups [instA, instB, instC] (70 / 100) = [[instA, instB], [instC]] := by
    norm_num [faceClusterGroups, validInstances, validFilterGo, greedyClusters,
      clusterAssignGo, cosineDistLT, dotQ, instA, instB, instC, List.range_succ]
  refine ⟨?_, h2, ?_⟩
  · norm_num [cosineDistLT, dotQ, instB, instC]
  · intro g hg
    rw [h2] at hg
    simp only [List.mem_cons, List.not_mem_nil, or_false] at hg
    rcases hg with rfl | rfl <;> simp [instA, instB, instC, FaceInstanceQ.mk.injEq]

/-- Counterexample to claim C3: on the backlog [1..10] with every item
succeeding, the single worker run handles all ten items and ends with
the `complete` status — it never voluntarily exits after item 5; the
cadence block rebuilds the cache and continues in-process
(worker lines 424-425), and the counter reset makes the final
self-reported processed count 0, not 10. -/
theorem C3_counterexample :
    (workerRun backlogTen outcomeAllOk).status = .complete ∧
    (workerRun backlogTen outcomeAllOk).processedIds = [1, 2, 3, 4, 5, 6, 7, 8, 9, 10] ∧
    (workerRun backlogTen outcomeAllOk).processedIds ≠ [1, 2, 3, 4, 5] ∧
    (workerRun backlogTen outcomeAllOk).reportedProcessed = 0 := by
  decide

/-- Counterexample to claim C4: item 7 times out *once*, is durably
marked attempted in that same run, and the relaunched worker never
selects it again — an item that fails only once is not retried, so no
item can ever fail "twice across restarts". -/
theorem C4_counterexample :
    (workerRun backlogTen outcomeTimeout7).status = .restarting ∧
    (workerRun backlogTen outcomeTimeout7).processedIds = [1, 2, 3, 4, 5, 6, 7] ∧
    (((workerRun backlogTen outcomeTimeout7).table.filter (fun r => r.attempted)).map
      (fun r => r.id)) = [1, 2, 3, 4, 5, 6, 7] ∧
    7 ∉ (workerRun (workerRun backlogTen outcomeTimeout7).table outcomeTimeout7).processedIds := by
  decide

/-- Counterexample to claim C5: under pathological repeated crashes with
backlog remaining, the loop does stop at the 100-launch cap — but it
then returns exit code 0 (main.py lines 952-954), so the caller reports
the `"complete"` status, not an error. -/
theorem C5_counterexample :
    runWorkerSupervisor crashingLaunch = (0, 100) ∧
    supervisorStatus (runWorkerSupervisor crashingLaunch).1 = "complete" ∧
    supervisorStatus (runWorkerSupervisor crashingLaunch).1 ≠ "error" := by
  decide

/-- Counterexample to claim C6: excluding the only photo of `person_0`
via `remove_photo_from_cluster` empties its effective membership, but —
the photo not being the cluster's profile picture — the endpoint leaves
the label store untouched: the cluster is *not* marked hidden by the
mutation. -/
theorem C6_counterexample :
    effectiveMembership [soloCluster]
      (removePhotoFromCluster [soloCluster] [] [] [1] "person_0" 1).1
      (removePhotoFromCluster [soloCluster] [] [] [1] "person_0" 1).2 "person_0" = [] ∧
    hiddenOf (removePhotoFromCluster [soloCluster] [] [] [1] "person_0" 1).1 "person_0"
      = false := by
  decide

/-- Counterexample to claim C7: with the code's own feedback bands
τ₁ = 0.65 (approval) < τ₂ = 0.80 (rejection), the four fixture instances
yield 2 clusters at τ₁ but 3 clusters at τ₂ — the cluster count is not
monotone non-increasing in the threshold, because a larger τ lets an
earlier seed steal a later seed's neighbour. -/
theorem C7_counterexample :
    chooseThreshold true false = 65 / 100 ∧
    chooseThreshold false true = 80 / 100 ∧
    (65 : ℚ) / 100 < 80 / 100 ∧
    (faceClusterGroups [instW, instX, instY, instZ] (65 / 100)).length = 2 ∧
    (faceClusterGroups [instW, instX, instY, instZ] (80 / 100)).length = 3 := by
  have hWX65 : cosineDistLT [7, 0, 24, 0] [25, 0, 0, 0] ((65 : ℚ) / 100) = false := by
    norm_num [cosineDistLT, dotQ]
  have hWY65 : cosineDistLT [7, 0, 24, 0] [15, 20, 0, 0] ((65 : ℚ) / 100) = false := by
    norm_num [cosineDistLT, dotQ]
  have hWZ65 : cosineDistLT [7, 0, 24, 0] [15, -20, 0, 0] ((65 : ℚ) / 100) = false := by
    norm_num [cosineDistLT, dotQ]
  have hXY65 : cosineDistLT [25, 0, 0, 0] [15, 20, 0, 0] ((65 : ℚ) / 100) = true := by
    norm_num [cosineDistLT, dotQ]
  have hXZ65 : cosineDistLT [25, 0, 0, 0] [15, -20, 0, 0] ((65 : ℚ) / 100) = true := by
    norm_num [cosineDistLT, dotQ]
  have hYZ65 : cosineDistLT [15, 20, 0, 0] [15, -20, 0, 0] ((65 : ℚ) / 100) = false := by
    norm_num [cosineDistLT, dotQ]
  have hWX80 : cosineDistLT [7, 0, 24, 0] [25, 0, 0, 0] ((80 : ℚ) / 100) = true := by
    norm_num [cosineDistLT, dotQ]
  have hWY80 : cosineDistLT [7, 0, 24, 0] [15, 20, 0, 0] ((80 : ℚ) / 100) = false := by
    norm_num [cosineDistLT, dotQ]
  have hWZ80 : cosineDistLT [7, 0, 24, 0] [15, -20, 0, 0] ((80 : ℚ) / 100) = false := by
    norm_num [cosineDistLT, dotQ]
  have hXY80 : cosineDistLT [25, 0, 0, 0] [15, 20, 0, 0] ((80 : ℚ) / 100) = true := by
    norm_num [cosineDistLT, dotQ]
  have hXZ80 : cosineDistLT [25, 0, 0, 0] [15, -20, 0, 0] ((80 : ℚ) / 100) = true := by
    norm_num [cosineDistLT, dotQ]
  have hYZ80 : cosineDistLT [15, 20, 0, 0] [15, -20, 0, 0] ((80 : ℚ) / 100) = false := by
    norm_num [cosineDistLT, dotQ]
  refine ⟨by norm_num [chooseThreshold], by norm_num [chooseThreshold], by norm_num, ?_, ?_⟩
  · simp [faceClusterGroups, validInstances, validFilterGo, greedyClusters,
      clusterAssignGo, instW, instX, instY, instZ, List.range_succ,
      hWX65, hWY65, hWZ65, hXY65, hXZ65, hYZ65]
  · simp [faceClusterGroups, validInstances, validFilterGo, greedyClusters,
      clusterAssignGo, instW, instX, instY, instZ, List.range_succ,
      hWX80, hWY80, hWZ80, hXY80, hXZ80, hYZ80]

/-- Counterexample to claim C9: on embedding sizes `[1, 2, 2]` the
majority dimensionality is 2, yet the pre-filter keeps only the size-1
instance — `expected_size` is taken from the *first* valid instance, not
from the majority. -/
theorem C9_counterexample :
    validInstances [dimInstA, dimInstB, dimInstC] = [dimInstA] ∧
    ([dimInstA, dimInstB, dimInstC].countP (fun i => i.embedding.length == 2)) = 2 ∧
    ([dimInstA, dimInstB, dimInstC].countP (fun i => i.embedding.length == 1)) = 1 := by
  refine ⟨?_, ?_, ?_⟩ <;>
    simp [validInstances, validFilterGo, dimInstA, dimInstB, dimInstC, List.countP_cons]

/-! ## Amended claims: worker cadence and failure policy -/

/-- Amended claim C3: on backlog [1..10] with cadence 5, the worker does
*not* exit at item 5 — after the fifth processed item it rebuilds the
clustering cache, resets its in-memory counters and continues, handling
all ten items in a single run (rebuilds after items 5 and 10 plus the
final one, so 3 in total) and durably marking all ten attempted; the
counter reset makes that run self-report 0 processed, and the cumulative
count 10 reappears only on a later launch via the durable
`face_detection_attempted` markers. -/
theorem C3_cadence_continues :
    (workerRun backlogTen outcomeAllOk).status = .complete ∧
    (workerRun backlogTen outcomeAllOk).processedIds = [1, 2, 3, 4, 5, 6, 7, 8, 9, 10] ∧
    (workerRun backlogTen outcomeAllOk).rebuilds = 3 ∧
    ((workerRun backlogTen outcomeAllOk).table.filter (fun r => r.attempted)).length = 10 ∧
    (workerRun (workerRun backlogTen outcomeAllOk).table outcomeAllOk).processedIds = [] ∧
    (workerRun (workerRun backlogTen outcomeAllOk).table outcomeAllOk).reportedProcessed
      = 10 := by
  decide

/-- Amended claim C4 (scenario D corrected): an item that times out is
durably marked attempted on its *first* failure and the run exits with
the `restarting` status; the relaunched worker never selects it again —
it cannot fail "twice across restarts" — and the items after it still
complete in the relaunch, so one poisoned input never stalls the
backlog. -/
theorem C4_first_failure_skips :
    (workerRun backlogTen outcomeTimeout7).status = .restarting ∧
    (workerRun (workerRun backlogTen outcomeTimeout7).table outcomeTimeout7).processedIds
      = [8, 9, 10] ∧
    (workerRun (workerRun backlogTen outcomeTimeout7).table outcomeTimeout7).status
      = .complete ∧
    ((workerRun (workerRun backlogTen outcomeTimeout7).table outcomeTimeout7).table.all
      (fun r => r.attempted)) = true := by
  decide

/-! ## Amended claim: supervisor cap -/

theorem supGo_launches_le (launch : Nat → Int × Nat) :
    ∀ fuel idx, (supGo launch fuel idx).2 ≤ idx + fuel := by
  intro fuel
  induction fuel with
  | zero => intro idx; simp [supGo]
  | succ fuel ih =>
    intro idx
    simp only [supGo]
    by_cases h1 : (launch idx).1 = 0 ∨ 0 < (launch idx).2
    · rw [if_pos h1]
      by_cases h2 : (launch idx).2 = 0
      · rw [if_pos h2]; omega
      · rw [if_neg h2]
        have := ih (idx + 1)
        omega
    · rw [if_neg h1]; omega

theorem supGo_always_crashing (launch : Nat → Int × Nat)
    (h : ∀ i, (launch i).1 ≠ 0 ∧ 0 < (launch i).2) :
    ∀ fuel idx, supGo launch fuel idx = (0, idx + fuel) := by
  intro fuel
  induction fuel with
  | zero => intro idx; simp [supGo]
  | succ fuel ih =>
    intro idx
    have h2 := (h idx).2
    have hcond : (launch idx).1 = 0 ∨ 0 < (launch idx).2 := Or.inr h2
    have hne : ¬(launch idx).2 = 0 := by omega
    simp only [supGo]
    rw [if_pos hcond, if_neg hne, ih (idx + 1)]
    have harith : idx + 1 + fuel = idx + (fuel + 1) := by omega
    rw [harith]

/-- Amended claim C5: the supervisor loop always terminates, after at
most 100 launches; but when repeated crashes with remaining backlog
exhaust the cap, `run_worker` returns exit code 0 and the caller
publishes the `"complete"` status — cap exhaustion is *not* surfaced as
an error (the error status appears only when a worker exits nonzero with
no backlog left). -/
theorem C5_cap_terminates_reports_complete :
    (∀ launch : Nat → Int × Nat, (runWorkerSupervisor launch).2 ≤ 100) ∧
    (∀ launch : Nat → Int × Nat,
      (∀ i, (launch i).1 ≠ 0 ∧ 0 < (launch i).2) →
      runWorkerSupervisor launch = (0, 100) ∧
      supervisorStatus (runWorkerSupervisor launch).1 = "complete") := by
  constructor
  · intro launch
    simpa using supGo_launches_le launch 100 0
  · intro launch h
    have := supGo_always_crashing launch h 100 0
    refine ⟨by simpa [runWorkerSupervisor] using this, ?_⟩
    rw [runWorkerSupervisor, this]
    rfl

/-- Witness for C5 at a concrete always-crashing launch oracle. -/
theorem C5_cap_terminates_reports_complete_witness :
    runWorkerSupervisor (fun _ => (2, 7)) = (0, 100) ∧
    supervisorStatus (runWorkerSupervisor (fun _ => (2, 7))).1 = "complete" := by
  have h : ∀ i : Nat, ((fun _ : Nat => ((2 : Int), (7 : Nat))) i).1 ≠ 0 ∧
      0 < ((fun _ : Nat => ((2 : Int), (7 : Nat))) i).2 := by
    intro i
    exact ⟨by norm_num, by norm_num⟩
  exact C5_cap_terminates_reports_complete.2 (fun _ => (2, 7)) h

/-! ## Amended claim: the pre-filter drops by first-instance size -/

theorem validFilterGo_some (sz : Nat) :
    ∀ l : List FaceInstanceQ,
      validFilterGo (some sz) l
        = l.filter (fun i => !i.embedding.isEmpty && decide (i.embedding.length = sz)) := by
  intro l
  induction l with
  | nil => rfl
  | cons i rest ih =>
    by_cases he : i.embedding.isEmpty
    · simp [validFilterGo, he, ih]
    · by_cases hl : i.embedding.length = sz
      · simp [validFilterGo, he, hl, ih]
      · simp [validFilterGo, he, hl, ih]

/-- Amended claim C9: the pre-filter drops exactly the instances whose
embedding is missing or whose dimensionality disagrees with that of the
*first* instance carrying a nonempty embedding (not with the majority
dimensionality); it is a total function — the run never fails — and when
no instance survives, clustering returns the empty result. -/
theorem C9_first_size_filter :
    (∀ l : List FaceInstanceQ,
      validInstances l
        = l.filter (fun i => !i.embedding.isEmpty &&
            decide (firstValidEmbSize l = some i.embedding.length))) ∧
    (∀ (l : List FaceInstanceQ) (τ : ℚ), validInstances l = [] →
      faceClusterGroups l τ = []) := by
  constructor
  · intro l
    induction l with
    | nil => rfl
    | cons i rest ih =>
      by_cases he : i.embedding.isEmpty
      · have hfirst : firstValidEmbSize (i :: rest) = firstValidEmbSize rest := by
          simp [firstValidEmbSize, List.find?, he]
        rw [hfirst]
        simpa [validInstances, validFilterGo, he] using ih
      · have hfirst : firstValidEmbSize (i :: rest) = some i.embedding.length := by
          simp [firstValidEmbSize, List.find?, he]
        rw [hfirst]
        have hev : validInstances (i :: rest)
            = i :: validFilterGo (some i.embedding.length) rest := by
          simp [validInstances, validFilterGo, he]
        rw [hev, validFilterGo_some, List.filter_cons_of_pos (by simp [he])]
        congr 1
        apply List.filter_congr
        intro x _
        simp [eq_comm]
  · intro l τ h
    by_cases hl : l.isEmpty
    · simp [faceClusterGroups, hl]
    · simp [faceClusterGroups, hl, h]

/-- Witness for C9 at a concrete instance list. -/
theorem C9_first_size_filter_witness :
    faceClusterGroups [{ path := "e.jpg", bbox := [], embedding := [], score := 1 }]
      (7 / 10) = [] :=
  C9_first_size_filter.2 [{ path := "e.jpg", bbox := [], embedding := [], score := 1 }]
    (7 / 10) rfl

/-! ## Amended claim: emptiness auto-hide -/

theorem hiddenOf_hideCluster (labels : Labels) (cid : String) :
    hiddenOf (hideCluster labels cid) cid = true := by
  unfold hiddenOf hideCluster
  rw [lookupLabel_insertLabel_self]
  rfl

theorem hiddenOf_hideCluster_ne (labels : Labels) (cid cid' : String) (h : cid' ≠ cid) :
    hiddenOf (hideCluster labels cid) cid' = hiddenOf labels cid' := by
  unfold hiddenOf hideCluster
  rw [lookupLabel_insertLabel_ne _ _ _ _ h]

theorem listAutoHideStep_mono (exclusions : Exclusions) (labels : Labels)
    (c : ClusterRec) (cid : String) (h : hiddenOf labels cid = true) :
    hiddenOf (listAutoHideStep exclusions labels c) cid = true := by
  unfold listAutoHideStep
  by_cases hcond : ((listClusterPhotoIds c.photos (excludedIdsFor exclusions c.id)).length = 0
      && !hiddenOf labels c.id) = true
  · rw [if_pos hcond]
    by_cases hid : cid = c.id
    · rw [hid]; exact hiddenOf_hideCluster labels c.id
    · rw [hiddenOf_hideCluster_ne _ _ _ hid]; exact h
  · rw [if_neg hcond]; exact h

theorem listFaceClustersAutoHide_mono (clusters : List ClusterRec)
    (exclusions : Exclusions) :
    ∀ (labels : Labels) (cid : String), hiddenOf labels cid = true →
      hiddenOf (listFaceClustersAutoHide clusters exclusions labels) cid = true := by
  induction clusters with
  | nil => intro labels cid h; exact h
  | cons c rest ih =>
    intro labels cid h
    exact ih _ _ (listAutoHideStep_mono exclusions labels c cid h)

/-- Amended claim C6: the emptiness auto-hide is real but partial.
`check_and_hide_empty_cluster` hides a clusterKey exactly when it occurs
in the freshly recomputed clustering and its
(embedding photos ∪ record confirmed photos) − exclusions remainder is
empty, and otherwise leaves the label store untouched; the move-photo
mutation runs it on the source cluster after recording the exclusion;
and the cluster-listing query lazily persists `hidden = True` for every
listed cluster whose photos-after-exclusions are empty.  (The plain
photo-removal mutation, as the counterexample shows, hides only in its
profile-picture special case.) -/
theorem C6_auto_hide_paths :
    (∀ (clusters : List ClusterRec) (exclusions : Exclusions) (cid : String)
        (labels : Labels) (cluster : ClusterRec),
      clusters.find? (fun c => c.id == cid) = some cluster →
      (remainingAfterExclusions cluster exclusions cid).isEmpty = true →
      (checkAndHideEmptyCluster clusters exclusions cid labels).2 = true ∧
      hiddenOf (checkAndHideEmptyCluster clusters exclusions cid labels).1 cid = true) ∧
    (∀ (clusters : List ClusterRec) (exclusions : Exclusions) (cid : String)
        (labels : Labels),
      (checkAndHideEmptyCluster clusters exclusions cid labels).2 = false →
      (checkAndHideEmptyCluster clusters exclusions cid labels).1 = labels) ∧
    (∀ (clusters : List ClusterRec) (exclusions : Exclusions) (labels : Labels)
        (mid : Nat) (fromCid toCid : String) (labels2 : Labels) (exclusions2 : Exclusions),
      movePhotoToCluster clusters exclusions labels mid fromCid toCid
        = some (labels2, exclusions2) →
      ∀ cluster : ClusterRec, clusters.find? (fun c => c.id == fromCid) = some cluster →
      (remainingAfterExclusions cluster exclusions2 fromCid).isEmpty = true →
      hiddenOf labels2 fromCid = true) ∧
    (∀ (clusters : List ClusterRec) (exclusions : Exclusions) (labels : Labels)
        (c : ClusterRec), c ∈ clusters →
      (listClusterPhotoIds c.photos (excludedIdsFor exclusions c.id)).length = 0 →
      hiddenOf (listFaceClustersAutoHide clusters exclusions labels) c.id = true) := by
  have hmain : ∀ (clusters : List ClusterRec) (exclusions : Exclusions) (cid : String)
      (labels : Labels) (cluster : ClusterRec),
      clusters.find? (fun c => c.id == cid) = some cluster →
      (remainingAfterExclusions cluster exclusions cid).isEmpty = true →
      (checkAndHideEmptyCluster clusters exclusions cid labels).2 = true ∧
      hiddenOf (checkAndHideEmptyCluster clusters exclusions cid labels).1 cid = true := by
    intro clusters exclusions cid labels cluster hfind hempty
    constructor
    · simp [checkAndHideEmptyCluster, hfind, hempty]
    · simp only [checkAndHideEmptyCluster, hfind, hempty, if_true]
      exact hiddenOf_hideCluster labels cid
  refine ⟨hmain, ?_, ?_, ?_⟩
  · intro clusters exclusions cid labels h
    cases hfind : clusters.find? (fun c => c.id == cid) with
    | none => simp [checkAndHideEmptyCluster, hfind]
    | some cluster =>
      by_cases hempty : (remainingAfterExclusions cluster exclusions cid).isEmpty = true
      · exfalso
        simp [checkAndHideEmptyCluster, hfind, hempty] at h
      · simp [checkAndHideEmptyCluster, hfind, hempty]
  · intro clusters exclusions labels mid fromCid toCid labels2 exclusions2 hmove
      cluster hfind hempty
    unfold movePhotoToCluster at hmove
    by_cases ht : (clusters.find? (fun c => c.id == toCid)).isNone
    · rw [if_pos ht] at hmove; exact absurd hmove (by simp)
    · rw [if_neg ht] at hmove
      have hf : (clusters.find? (fun c => c.id == fromCid)).isNone = false := by
        rw [hfind]; rfl
      rw [if_neg (by simp [hf])] at hmove
      have hpair := Option.some.inj hmove
      have hexcl : exclusions2 = addExclusionReplace exclusions fromCid mid :=
        (congrArg Prod.snd hpair).symm
      have hlab : labels2 = (checkAndHideEmptyCluster clusters
          (addExclusionReplace exclusions fromCid mid) fromCid _).1 :=
        (congrArg Prod.fst hpair).symm
      rw [hlab]
      refine (hmain clusters (addExclusionReplace exclusions fromCid mid) fromCid _
        cluster hfind ?_).2
      rw [← hexcl]
      exact hempty
  · intro clusters exclusions labels c hc hlen
    induction clusters generalizing labels with
    | nil => cases hc
    | cons c0 rest ih =>
      rcases List.mem_cons.mp hc with rfl | hmem
      · refine listFaceClustersAutoHide_mono rest exclusions _ _ ?_
        unfold listAutoHideStep
        by_cases hid : hiddenOf labels c.id = true
        · by_cases hcond : ((listClusterPhotoIds c.photos
              (excludedIdsFor exclusions c.id)).length = 0 && !hiddenOf labels c.id) = true
          · rw [if_pos hcond]; exact hiddenOf_hideCluster labels c.id
          · rw [if_neg hcond]; exact hid
        · rw [if_pos (by simp [hlen, hid])]
          exact hiddenOf_hideCluster labels c.id
      · exact ih (listAutoHideStep exclusions labels c0) hmem

/-- Witness for C6 at concrete inputs: moving the only photo of
`person_0` to `person_1` empties and hides the source cluster. -/
theorem C6_auto_hide_paths_witness :
    hiddenOf (listFaceClustersAutoHide [{ id := "person_9", photos := [some 4] }]
      [("person_9", 4)] []) "person_9" = true :=
  C6_auto_hide_paths.2.2.2 [{ id := "person_9", photos := [some 4] }]
    [("person_9", 4)] [] { id := "person_9", photos := [some 4] }
    (by decide) (by decide)

/-! ## Amended claim: what does hold of the cluster count -/

theorem contains_eq_false_of_forall_lt (assigned : List Nat) (i : Nat)
    (h : ∀ a ∈ assigned, a < i) : assigned.contains i = false := by
  induction assigned with
  | nil => rfl
  | cons a rest ih =>
    have ha : a < i := h a (List.mem_cons_self a rest)
    have hrest : ∀ b ∈ rest, b < i := fun b hb => h b (List.mem_cons_of_mem a hb)
    simp only [List.contains_cons, Bool.or_eq_false_iff]
    constructor
    · simp only [beq_eq_false_iff_ne, ne_eq]
      omega
    · exact ih hrest

theorem clusterAssignGo_length_le (near : Nat → Nat → Bool) (n : Nat) :
    ∀ (steps i : Nat) (assigned : List Nat),
      (clusterAssignGo near n steps i assigned).length ≤ steps := by
  intro steps
  induction steps with
  | zero => intro i assigned; simp [clusterAssignGo]
  | succ s ih =>
    intro i assigned
    simp only [clusterAssignGo]
    by_cases h : assigned.contains i
    · rw [if_pos h]
      exact Nat.le_trans (ih _ _) (Nat.le_succ s)
    · rw [if_neg h]
      simp only [List.length_cons]
      have := ih (i + 1)
        (assigned ++ i :: (List.range n).filter
          (fun j => decide (i < j) && !assigned.contains j && near i j))
      omega

theorem clusterAssignGo_all_false (near : Nat → Nat → Bool) (n : Nat)
    (hnear : ∀ i j, near i j = false) :
    ∀ (steps i : Nat) (assigned : List Nat), (∀ a ∈ assigned, a < i) →
      (clusterAssignGo near n steps i assigned).length = steps := by
  intro steps
  induction steps with
  | zero => intro i assigned _; simp [clusterAssignGo]
  | succ s ih =>
    intro i assigned hinv
    have hnc : assigned.contains i = false := contains_eq_false_of_forall_lt assigned i hinv
    have hgrab : (List.range n).filter
        (fun j => decide (i < j) && !assigned.contains j && near i j) = [] := by
      simp [hnear]
    simp only [clusterAssignGo, hnc, Bool.false_eq_true, if_false, hgrab]
    simp only [List.length_cons]
    rw [ih (i + 1) (assigned ++ [i]) ?_]
    intro a ha
    rcases List.mem_append.mp ha with ha | ha
    · exact Nat.lt_succ_of_lt (hinv a ha)
    · simp only [List.mem_singleton] at ha
      omega

theorem clusterAssignGo_all_in (near : Nat → Nat → Bool) (n : Nat) :
    ∀ (steps i : Nat) (assigned : List Nat),
      i + steps ≤ n → (∀ k, k < n → assigned.contains k = true) →
      clusterAssignGo near n steps i assigned = [] := by
  intro steps
  induction steps with
  | zero => intro i assigned _ _; rfl
  | succ s ih =>
    intro i assigned hle hall
    have hi : i < n := by omega
    simp only [clusterAssignGo, hall i hi, if_true]
    exact ih (i + 1) assigned (by omega) hall

/-- Amended claim C7: threshold monotonicity of the cluster count fails
(see the counterexample), but these bounds hold of the greedy grouping
for every nearness matrix on `n ≥ 1` instances: the count lies between 1
and `n`, a threshold below every pairwise distance yields exactly `n`
singleton clusters, and a threshold above every pairwise distance yields
exactly one cluster. -/
theorem C7_cluster_count_bounds :
    ∀ (near : Nat → Nat → Bool) (n : Nat), 1 ≤ n →
      1 ≤ (greedyClusters near n).length ∧
      (greedyClusters near n).length ≤ n ∧
      ((∀ i j, near i j = false) → (greedyClusters near n).length = n) ∧
      ((∀ i j, near i j = true) → (greedyClusters near n).length = 1) := by
  intro near n hn
  obtain ⟨m, rfl⟩ : ∃ m, n = m + 1 := ⟨n - 1, by omega⟩
  refine ⟨?_, ?_, ?_, ?_⟩
  · unfold greedyClusters
    simp only [clusterAssignGo]
    rw [if_neg (by decide)]
    simp
  · exact clusterAssignGo_length_le near (m + 1) (m + 1) 0 []
  · intro hfalse
    exact clusterAssignGo_all_false near (m + 1) hfalse (m + 1) 0 [] (by simp)
  · intro htrue
    unfold greedyClusters
    simp only [clusterAssignGo]
    rw [if_neg (by decide)]
    have hrest : clusterAssignGo near (m + 1) m 1
        ([] ++ 0 :: (List.range (m + 1)).filter
          (fun j => decide (0 < j) && !(([] : List Nat).contains j) && near 0 j)) = [] := by
      apply clusterAssignGo_all_in near (m + 1) m 1 _ (by omega)
      intro k hk
      rcases Nat.eq_zero_or_pos k with rfl | hkpos
      · simp
      · simp only [List.nil_append, List.contains_cons]
        have hmem : k ∈ (List.range (m + 1)).filter
            (fun j => decide (0 < j) && !(([] : List Nat).contains j) && near 0 j) := by
          simp [List.mem_filter, List.mem_range, htrue, hk, hkpos]
        have hcont := List.elem_eq_true_of_mem hmem
        simp [hcont]
        exact Or.inr ⟨hk, hkpos, htrue 0 k⟩
    rw [hrest]
    rfl

/-- Witness for C7 bounds at a concrete all-false nearness matrix. -/
theorem C7_cluster_count_bounds_witness :
    (greedyClusters (fun _ _ => false) 2).length = 2 :=
  (C7_cluster_count_bounds (fun _ _ => false) 2 (by decide)).2.2.1 (fun _ _ => rfl)

/-! ## Amended claim: the grouping is greedy seed absorption, a partition -/

theorem contains_eq_true_of_mem {l : List Nat} {a : Nat} (h : a ∈ l) :
    l.contains a = true :=
  List.elem_eq_true_of_mem h

theorem contains_eq_false_of_not_mem {l : List Nat} {a : Nat} (h : a ∉ l) :
    l.contains a = false := by
  cases hc : l.contains a
  · rfl
  · exact absurd (List.mem_of_elem_eq_true hc) h

theorem clusterAssignGo_not_mem_of_assigned (near : Nat → Nat → Bool) (n : Nat) :
    ∀ (steps i : Nat) (assigned : List Nat) (k : Nat), k ∈ assigned →
      ∀ g ∈ clusterAssignGo near n steps i assigned, k ∉ g := by
  intro steps
  induction steps with
  | zero => intro i assigned k _ g hg; simp [clusterAssignGo] at hg
  | succ s ih =>
    intro i assigned k hk g hg
    simp only [clusterAssignGo] at hg
    by_cases hc : assigned.contains i
    · rw [if_pos hc] at hg
      exact ih (i + 1) assigned k hk g hg
    · rw [if_neg hc] at hg
      rcases List.mem_cons.mp hg with rfl | hg
      · intro hkg
        rcases List.mem_cons.mp hkg with rfl | hkg2
        · exact hc (contains_eq_true_of_mem hk)
        · have h2 := (List.mem_filter.mp hkg2).2
          rw [contains_eq_true_of_mem hk] at h2
          simp at h2
      · refine ih (i + 1) _ k ?_ g hg
        exact List.mem_append.mpr (Or.inl hk)

theorem clusterAssignGo_countP_one (near : Nat → Nat → Bool) (n : Nat) :
    ∀ (steps i : Nat) (assigned : List Nat) (k : Nat),
      i + steps = n → k < n → k ∉ assigned → (∀ m, m < i → m ∈ assigned) →
      (clusterAssignGo near n steps i assigned).countP (fun g => g.contains k) = 1 := by
  intro steps
  induction steps with
  | zero =>
    intro i assigned k hin hk hka hinv
    exact absurd (hinv k (by omega)) hka
  | succ s ih =>
    intro i assigned k hin hk hka hinv
    simp only [clusterAssignGo]
    by_cases hc : assigned.contains i
    · rw [if_pos hc]
      refine ih (i + 1) assigned k (by omega) hk hka ?_
      intro m hm
      rcases Nat.lt_succ_iff_lt_or_eq.mp hm with hm | rfl
      · exact hinv m hm
      · exact List.mem_of_elem_eq_true hc
    · rw [if_neg hc]
      rw [List.countP_cons]
      by_cases hhead : k ∈ i :: (List.range n).filter
          (fun j => decide (i < j) && !assigned.contains j && near i j)
      · have h0 : ∀ g ∈ clusterAssignGo near n s (i + 1)
            (assigned ++ i :: (List.range n).filter
              (fun j => decide (i < j) && !assigned.contains j && near i j)),
            k ∉ g := by
          intro g hg
          refine clusterAssignGo_not_mem_of_assigned near n s (i + 1) _ k ?_ g hg
          exact List.mem_append.mpr (Or.inr hhead)
        have hz : (clusterAssignGo near n s (i + 1)
            (assigned ++ i :: (List.range n).filter
              (fun j => decide (i < j) && !assigned.contains j && near i j))).countP
            (fun g => g.contains k) = 0 := by
          rw [List.countP_eq_zero]
          intro g hg
          simp only [Bool.not_eq_true]
          rcases hcg : g.contains k with _ | _
          · rfl
          · exact absurd (List.mem_of_elem_eq_true hcg) (h0 g hg)
        rw [hz, contains_eq_true_of_mem hhead]
        simp
      · rw [contains_eq_false_of_not_mem hhead]
        simp only [Bool.false_eq_true, if_false, Nat.add_zero]
        refine ih (i + 1) _ k (by omega) hk ?_ ?_
        · intro hmem
          rcases List.mem_append.mp hmem with hmem | hmem
          · exact hka hmem
          · exact hhead hmem
        · intro m hm
          rcases Nat.lt_succ_iff_lt_or_eq.mp hm with hm | rfl
          · exact List.mem_append.mpr (Or.inl (hinv m hm))
          · exact List.mem_append.mpr (Or.inr (List.mem_cons_self _ _))

theorem clusterAssignGo_shape (near : Nat → Nat → Bool) (n : Nat) :
    ∀ (steps i : Nat) (assigned : List Nat) (g : List Nat),
      g ∈ clusterAssignGo near n steps i assigned →
      ∃ seed rest, g = seed :: rest ∧ ∀ j ∈ rest, near seed j = true ∧ seed < j := by
  intro steps
  induction steps with
  | zero => intro i assigned g hg; simp [clusterAssignGo] at hg
  | succ s ih =>
    intro i assigned g hg
    simp only [clusterAssignGo] at hg
    by_cases hc : assigned.contains i
    · rw [if_pos hc] at hg
      exact ih (i + 1) assigned g hg
    · rw [if_neg hc] at hg
      rcases List.mem_cons.mp hg with rfl | hg
      · refine ⟨i, _, rfl, ?_⟩
        intro j hj
        have := (List.mem_filter.mp hj).2
        simp only [Bool.and_eq_true, decide_eq_true_eq] at this
        exact ⟨this.2, this.1.1⟩
      · exact ih (i + 1) _ g hg

/-- Amended claim C2: the clustering loop is greedy one-pass seed
absorption, not single-link transitive grouping (see the
counterexample): every surviving instance index ends up in exactly one
cluster (so singletons are kept, never discarded as noise), and each
cluster consists of a seed — the lowest-indexed instance that was
unassigned when reached — together with exactly those later
still-unassigned instances whose distance *to the seed* is below τ. -/
theorem C2_greedy_seed_partition :
    (∀ (near : Nat → Nat → Bool) (n k : Nat), k < n →
      (greedyClusters near n).countP (fun g => g.contains k) = 1) ∧
    (∀ (near : Nat → Nat → Bool) (n : Nat) (g : List Nat), g ∈ greedyClusters near n →
      ∃ seed rest, g = seed :: rest ∧ ∀ j ∈ rest, near seed j = true ∧ seed < j) := by
  constructor
  · intro near n k hk
    exact clusterAssignGo_countP_one near n n 0 [] k (by omega) hk (by simp)
      (by intro m hm; omega)
  · intro near n g hg
    exact clusterAssignGo_shape near n n 0 [] g hg

/-- Witness for C2 at a concrete nearness matrix. -/
theorem C2_greedy_seed_partition_witness :
    (greedyClusters (fun _ _ => true) 3).countP (fun g => g.contains 1) = 1 :=
  C2_greedy_seed_partition.1 (fun _ _ => true) 3 1 (by decide)

/-! ## Amended claim: effective membership of the photo queries -/

theorem truthyIds_mem (photos : List (Option Nat)) (x : Nat) :
    x ∈ truthyIds photos ↔ (some x ∈ photos ∧ x ≠ 0) := by
  simp only [truthyIds, List.mem_filterMap]
  constructor
  · rintro ⟨a, ha, hfa⟩
    cases a with
    | none => simp at hfa
    | some m =>
      by_cases hm : m = 0
      · subst hm; simp at hfa
      · simp only [hm, if_false] at hfa
        simp only [Option.some.injEq] at hfa
        subst hfa
        exact ⟨ha, hm⟩
  · rintro ⟨hmem, hx0⟩
    exact ⟨some x, hmem, by simp [hx0]⟩

theorem gcpFirstLoop_eq (confirmed excluded : List Nat) :
    ∀ photos : List (Option Nat),
      gcpFirstLoop confirmed excluded photos =
        ((truthyIds photos).filter (fun m => !excluded.contains m),
         (truthyIds photos).filter (fun m => !excluded.contains m && confirmed.contains m),
         (truthyIds photos).filter
           (fun m => !excluded.contains m && !confirmed.contains m)) := by
  intro photos
  induction photos with
  | nil => rfl
  | cons mid rest ih =>
    cases mid with
    | none => simpa [gcpFirstLoop, truthyIds] using ih
    | some m =>
      by_cases hm0 : m = 0
      · subst hm0
        simpa [gcpFirstLoop, truthyIds] using ih
      · by_cases hex : m ∈ excluded
        · simp [gcpFirstLoop, truthyIds, hm0, hex, ih]
        · by_cases hcf : m ∈ confirmed
          · simp [gcpFirstLoop, truthyIds, hm0, hex, hcf, ih]
          · simp [gcpFirstLoop, truthyIds, hm0, hex, hcf, ih]

theorem gcpSecondLoop_mem (excluded db : List Nat) :
    ∀ (l added : List Nat), l.Nodup → ∀ x : Nat,
      (x ∈ gcpSecondLoop excluded db added l ↔
        (x ∈ l ∧ x ∉ added ∧ x ∉ excluded ∧ x ∈ db)) := by
  intro l
  induction l with
  | nil => intro added _ x; simp [gcpSecondLoop]
  | cons m rest ih =>
    intro added hnd x
    obtain ⟨hmr, hndr⟩ := List.nodup_cons.mp hnd
    by_cases hor : m ∈ added ∨ m ∈ excluded
    · have hskip : gcpSecondLoop excluded db added (m :: rest)
          = gcpSecondLoop excluded db added rest := by
        rcases hor with h | h
        · simp [gcpSecondLoop, h]
        · simp [gcpSecondLoop, h]
      rw [hskip, ih added hndr x]
      constructor
      · rintro ⟨h1, h2, h3, h4⟩
        exact ⟨List.mem_cons_of_mem _ h1, h2, h3, h4⟩
      · rintro ⟨h1, h2, h3, h4⟩
        rcases List.mem_cons.mp h1 with rfl | h1
        · rcases hor with hc | hc
          · exact absurd hc h2
          · exact absurd hc h3
        · exact ⟨h1, h2, h3, h4⟩
    · have hma : m ∉ added := fun h => hor (Or.inl h)
      have hme : m ∉ excluded := fun h => hor (Or.inr h)
      by_cases hdb : m ∈ db
      · have hstep : gcpSecondLoop excluded db added (m :: rest)
            = m :: gcpSecondLoop excluded db (m :: added) rest := by
          simp [gcpSecondLoop, hma, hme, hdb]
        rw [hstep]
        constructor
        · intro h
          rcases List.mem_cons.mp h with rfl | h
          · exact ⟨List.mem_cons_self _ _, hma, hme, hdb⟩
          · obtain ⟨k1, k2, k3, k4⟩ := (ih (m :: added) hndr x).mp h
            exact ⟨List.mem_cons_of_mem _ k1,
              fun hxa => k2 (List.mem_cons_of_mem _ hxa), k3, k4⟩
        · rintro ⟨h1, h2, h3, h4⟩
          rcases List.mem_cons.mp h1 with rfl | h1
          · exact List.mem_cons_self _ _
          · refine List.mem_cons_of_mem _ ((ih (m :: added) hndr x).mpr
              ⟨h1, ?_, h3, h4⟩)
            intro hxa
            rcases List.mem_cons.mp hxa with heq | hxa
            · exact hmr (heq ▸ h1)
            · exact h2 hxa
      · have hstep : gcpSecondLoop excluded db added (m :: rest)
            = gcpSecondLoop excluded db (m :: added) rest := by
          simp [gcpSecondLoop, hma, hme, hdb]
        rw [hstep, ih (m :: added) hndr x]
        constructor
        · rintro ⟨k1, k2, k3, k4⟩
          exact ⟨List.mem_cons_of_mem _ k1,
            fun hxa => k2 (List.mem_cons_of_mem _ hxa), k3, k4⟩
        · rintro ⟨h1, h2, h3, h4⟩
          rcases List.mem_cons.mp h1 with rfl | h1
          · exact absurd h4 hdb
          · refine ⟨h1, ?_, h3, h4⟩
            intro hxa
            rcases List.mem_cons.mp hxa with heq | hxa
            · exact hmr (heq ▸ h1)
            · exact h2 hxa

theorem gcpFirstLoop_added_mem (confirmed excluded : List Nat)
    (photos : List (Option Nat)) (x : Nat) :
    x ∈ (gcpFirstLoop confirmed excluded photos).1 ↔
      (some x ∈ photos ∧ x ≠ 0 ∧ x ∉ excluded) := by
  rw [gcpFirstLoop_eq]
  simp [List.mem_filter, truthyIds_mem, and_assoc]

theorem gcpFirstLoop_confirmed_mem (confirmed excluded : List Nat)
    (photos : List (Option Nat)) (x : Nat) :
    x ∈ (gcpFirstLoop confirmed excluded photos).2.1 ↔
      (some x ∈ photos ∧ x ≠ 0 ∧ x ∉ excluded ∧ x ∈ confirmed) := by
  rw [gcpFirstLoop_eq]
  simp [List.mem_filter, truthyIds_mem, and_assoc]

theorem gcpFirstLoop_unconfirmed_mem (confirmed excluded : List Nat)
    (photos : List (Option Nat)) (x : Nat) :
    x ∈ (gcpFirstLoop confirmed excluded photos).2.2 ↔
      (some x ∈ photos ∧ x ≠ 0 ∧ x ∉ excluded ∧ x ∉ confirmed) := by
  rw [gcpFirstLoop_eq]
  simp [List.mem_filter, truthyIds_mem, and_assoc]

/-- Amended claim C1: `get_cluster_photos` returns exactly
(algorithmic members ∪ confirmedSourceItemIds) − excluded (for photos
carrying a nonzero media id and confirmed ids present in the media
table), and the excluded ids are absent from the output of *both*
query operations unconditionally; `list_face_clusters`, however,
computes its visible photo list as algorithmic members − excluded only,
ignoring confirmed ids (see the counterexample). -/
theorem C1_effective_membership :
    (∀ (clusterPhotos : List (Option Nat)) (confirmed excluded db : List Nat) (x : Nat),
      x ∈ excluded → x ∉ getClusterPhotosIds clusterPhotos confirmed excluded db) ∧
    (∀ (photos : List (Option Nat)) (excluded : List Nat) (x : Nat),
      x ∈ excluded → (some x) ∉ listClusterPhotoIds photos excluded) ∧
    (∀ (clusterPhotos : List (Option Nat)) (confirmed excluded db : List Nat),
      (∀ mid ∈ clusterPhotos, ∃ m, mid = some m ∧ m ≠ 0) →
      (∀ m ∈ confirmed, m ∈ db) →
      ∀ x, x ∈ getClusterPhotosIds clusterPhotos confirmed excluded db ↔
        ((some x ∈ clusterPhotos ∨ x ∈ confirmed) ∧ x ∉ excluded)) := by
  refine ⟨?_, ?_, ?_⟩
  · intro clusterPhotos confirmed excluded db x hx hmem
    unfold getClusterPhotosIds at hmem
    rcases List.mem_append.mp hmem with hmem | hmem
    · rcases List.mem_append.mp hmem with hmem | hmem
      · exact ((gcpFirstLoop_confirmed_mem confirmed excluded clusterPhotos x).mp
          hmem).2.2.1 hx
      · exact ((gcpSecondLoop_mem excluded db confirmed.dedup _
          (List.nodup_dedup confirmed) x).mp hmem).2.2.1 hx
    · exact ((gcpFirstLoop_unconfirmed_mem confirmed excluded clusterPhotos x).mp
        hmem).2.2.1 hx
  · intro photos excluded x hx hmem
    have hpred : ((!excluded.contains x) = true) := (List.mem_filter.mp hmem).2
    rw [contains_eq_true_of_mem hx] at hpred
    simp at hpred
  · intro clusterPhotos confirmed excluded db h1 h2 x
    unfold getClusterPhotosIds
    constructor
    · intro hmem
      rcases List.mem_append.mp hmem with hmem | hmem
      · rcases List.mem_append.mp hmem with hmem | hmem
        · have := (gcpFirstLoop_confirmed_mem confirmed excluded clusterPhotos x).mp hmem
          exact ⟨Or.inl this.1, this.2.2.1⟩
        · have := (gcpSecondLoop_mem excluded db confirmed.dedup _
            (List.nodup_dedup confirmed) x).mp hmem
          exact ⟨Or.inr (List.mem_dedup.mp this.1), this.2.2.1⟩
      · have := (gcpFirstLoop_unconfirmed_mem confirmed excluded clusterPhotos x).mp hmem
        exact ⟨Or.inl this.1, this.2.2.1⟩
    · rintro ⟨hor, hnex⟩
      by_cases hphoto : some x ∈ clusterPhotos
      · have hx0 : x ≠ 0 := by
          obtain ⟨m, hm, hm0⟩ := h1 (some x) hphoto
          have hxm : x = m := Option.some.inj hm
          rw [hxm]
          exact hm0
        by_cases hcf : x ∈ confirmed
        · refine List.mem_append.mpr (Or.inl (List.mem_append.mpr (Or.inl ?_)))
          exact (gcpFirstLoop_confirmed_mem confirmed excluded clusterPhotos x).mpr
            ⟨hphoto, hx0, hnex, hcf⟩
        · refine List.mem_append.mpr (Or.inr ?_)
          exact (gcpFirstLoop_unconfirmed_mem confirmed excluded clusterPhotos x).mpr
            ⟨hphoto, hx0, hnex, hcf⟩
      · have hcf : x ∈ confirmed := by tauto
        refine List.mem_append.mpr (Or.inl (List.mem_append.mpr (Or.inr ?_)))
        refine (gcpSecondLoop_mem excluded db confirmed.dedup _
          (List.nodup_dedup confirmed) x).mpr
          ⟨List.mem_dedup.mpr hcf, ?_, hnex, h2 x hcf⟩
        intro hadd
        exact hphoto ((gcpFirstLoop_added_mem confirmed excluded clusterPhotos x).mp hadd).1

/-- Witness for C1 at concrete inputs. -/
theorem C1_effective_membership_witness :
    2 ∈ getClusterPhotosIds [some 1] [2] [] [2] ↔
      ((some 2 ∈ [some 1] ∨ 2 ∈ [2]) ∧ 2 ∉ ([] : List Nat)) := by
  refine C1_effective_membership.2.2 [some 1] [2] [] [2] ?_ ?_ 2
  · intro mid hm
    rw [List.mem_singleton] at hm
    exact ⟨1, hm, by decide⟩
  · intro m hm
    exact hm

/-! ## Claim C8: worker resumability -/

theorem insertAsc_perm (x : Nat) :
    ∀ l : List Nat, List.Perm (insertAsc x l) (x :: l) := by
  intro l
  induction l with
  | nil => simp [insertAsc]
  | cons y ys ih =>
    by_cases h : x ≤ y
    · simp [insertAsc, h]
    · simp only [insertAsc, h, if_false]
      exact List.Perm.trans (ih.cons y) (List.Perm.swap x y ys)

theorem sortAsc_perm : ∀ l : List Nat, List.Perm (sortAsc l) l := by
  intro l
  induction l with
  | nil => simp [sortAsc]
  | cons x xs ih =>
    exact List.Perm.trans (insertAsc_perm x (sortAsc xs)) (ih.cons x)

theorem insertAsc_sorted (x : Nat) :
    ∀ l : List Nat, List.Sorted (fun a b => a ≤ b) l →
      List.Sorted (fun a b => a ≤ b) (insertAsc x l) := by
  intro l
  induction l with
  | nil => intro _; simp [insertAsc]
  | cons y ys ih =>
    intro hs
    rw [List.sorted_cons] at hs
    by_cases h : x ≤ y
    · rw [insertAsc, if_pos h, List.sorted_cons]
      refine ⟨?_, List.sorted_cons.mpr hs⟩
      intro b hb
      rcases List.mem_cons.mp hb with rfl | hb
      · exact h
      · exact Nat.le_trans h (hs.1 b hb)
    · rw [insertAsc, if_neg h, List.sorted_cons]
      refine ⟨?_, ih hs.2⟩
      intro b hb
      have hb2 := (insertAsc_perm x ys).mem_iff.mp hb
      rcases List.mem_cons.mp hb2 with rfl | hb2
      · omega
      · exact hs.1 b hb2

theorem sortAsc_sorted : ∀ l : List Nat, List.Sorted (fun a b => a ≤ b) (sortAsc l) := by
  intro l
  induction l with
  | nil => simp [sortAsc]
  | cons x xs ih => exact insertAsc_sorted x (sortAsc xs) ih

theorem unattemptedIds_markAttempted (tbl : List MediaRow) (y : Nat) :
    unattemptedIds (markAttempted tbl y)
      = (unattemptedIds tbl).filter (fun z => !(z == y)) := by
  induction tbl with
  | nil => rfl
  | cons r rest ih =>
    by_cases hid : r.id = y <;> by_cases hat : r.attempted <;>
      simp [unattemptedIds, markAttempted, hid, hat] at ih ⊢ <;>
      exact ih

theorem unattemptedIds_markMany (tbl : List MediaRow) :
    ∀ ids : List Nat,
      unattemptedIds (List.foldl markAttempted tbl ids)
        = (unattemptedIds tbl).filter (fun z => !ids.contains z) := by
  intro ids
  induction ids generalizing tbl with
  | nil => simp
  | cons y ys ih =>
    rw [List.foldl_cons, ih (markAttempted tbl y), unattemptedIds_markAttempted]
    rw [List.filter_filter]
    apply List.filter_congr
    intro z _
    by_cases hzy : z = y
    · subst hzy
      simp
    · by_cases hzys : z ∈ ys
      · simp [hzy, contains_eq_true_of_mem hzys]
      · simp [hzy, contains_eq_false_of_not_mem hzys,
          contains_eq_false_of_not_mem (by
            intro hmem
            rcases List.mem_cons.mp hmem with h | h
            · exact hzy h
            · exact hzys h : z ∉ y :: ys)]

theorem workerKillGo_all_ok (outcome : Nat → DetectOutcome)
    (hok : ∀ i, ∃ nf, outcome i = .ok nf) :
    ∀ (k : Nat) (sel : List Nat) (tbl : List MediaRow),
      workerKillGo outcome k sel tbl none
        = List.foldl markAttempted tbl (sel.take k) := by
  intro k
  induction k with
  | zero => intro sel tbl; simp [workerKillGo]
  | succ k ih =>
    intro sel tbl
    cases sel with
    | nil => simp [workerKillGo]
    | cons mid rest =>
      obtain ⟨nf, hnf⟩ := hok mid
      simp only [workerKillGo, hnf, List.take_succ_cons, List.foldl_cons]
      exact ih rest (markAttempted tbl mid)

theorem workerLoop_processedIds_all_ok (outcome : Nat → DetectOutcome)
    (hok : ∀ i, ∃ nf, outcome i = .ok nf) (already : Nat) :
    ∀ (items : List Nat) (tbl : List MediaRow) (pc faces skipped : Nat)
      (lf : Option Nat) (rb : Nat) (acc : List Nat),
      (workerLoop outcome already items tbl pc faces skipped lf rb acc).processedIds
        = acc ++ items := by
  intro items
  induction items with
  | nil => intro tbl pc faces skipped lf rb acc; simp [workerLoop]
  | cons mid rest ih =>
    intro tbl pc faces skipped lf rb acc
    obtain ⟨nf, hnf⟩ := hok mid
    by_cases hpc : pc + 1 ≥ 5
    · simp [workerLoop, hnf, hpc, ih]
    · simp [workerLoop, hnf, hpc, ih]

theorem workerRun_processedIds_all_ok (tbl : List MediaRow)
    (outcome : Nat → DetectOutcome) (hok : ∀ i, ∃ nf, outcome i = .ok nf) :
    (workerRun tbl outcome).processedIds = selectUnprocessed tbl := by
  unfold workerRun
  by_cases h : (selectUnprocessed tbl).isEmpty
  · rw [if_pos h]
    exact (List.isEmpty_iff.mp h).symm
  · rw [if_neg h]
    rw [workerLoop_processedIds_all_ok outcome hok _ _ _ _ _ _ _ _ _]
    rfl

theorem sortAsc_filter_comm (l : List Nat) (p : Nat → Bool) :
    sortAsc (l.filter p) = (sortAsc l).filter p := by
  have hperm : List.Perm (sortAsc (l.filter p)) ((sortAsc l).filter p) :=
    List.Perm.trans (sortAsc_perm _) (((sortAsc_perm l).symm).filter p)
  refine List.eq_of_perm_of_sorted hperm (sortAsc_sorted _) ?_
  exact List.Pairwise.filter p (sortAsc_sorted l)

theorem filter_not_contains_append (t d : List Nat) (hdisj : List.Disjoint t d) :
    (t ++ d).filter (fun z => !(t.contains z)) = d := by
  rw [List.filter_append]
  have h1 : t.filter (fun z => !(t.contains z)) = [] := by
    rw [List.filter_eq_nil_iff]
    intro a ha
    rw [contains_eq_true_of_mem ha]
    simp
  have h2 : d.filter (fun z => !(t.contains z)) = d := by
    rw [List.filter_eq_self]
    intro a ha
    rw [contains_eq_false_of_not_mem (fun hmem => hdisj hmem ha)]
    rfl
  rw [h1, h2, List.nil_append]

theorem nodup_filter_not_take (l : List Nat) (k : Nat) (hnd : l.Nodup) :
    l.filter (fun z => !((l.take k).contains z)) = l.drop k := by
  have hdisj : List.Disjoint (l.take k) (l.drop k) :=
    List.disjoint_take_drop hnd (Nat.le_refl k)
  have key := filter_not_contains_append (l.take k) (l.drop k) hdisj
  rw [List.take_append_drop] at key
  exact key

/-- Claim C8 (confirmed): the worker selects its backlog as the
unattempted rows in ascending id order and durably marks each handled
item, so killing it after `k` handled items leaves exactly the first `k`
selected ids marked; a fresh launch then selects and processes exactly
the remaining `total − k` items, still in ascending order, and never
reprocesses any of the first `k`. -/
theorem C8_worker_resumability :
    ∀ (tbl : List MediaRow) (outcome : Nat → DetectOutcome) (k : Nat),
      (tbl.map (fun r => r.id)).Nodup →
      (∀ i, ∃ nf, outcome i = .ok nf) →
      selectUnprocessed (workerRunKilled tbl outcome k)
        = (selectUnprocessed tbl).drop k ∧
      (workerRun (workerRunKilled tbl outcome k) outcome).processedIds
        = (selectUnprocessed tbl).drop k ∧
      ((selectUnprocessed tbl).drop k).length = (selectUnprocessed tbl).length - k ∧
      List.Sorted (fun a b => a ≤ b)
        ((workerRun (workerRunKilled tbl outcome k) outcome).processedIds) ∧
      (∀ x ∈ (selectUnprocessed tbl).take k,
        x ∉ (workerRun (workerRunKilled tbl outcome k) outcome).processedIds) := by
  intro tbl outcome k hnd hok
  have hUnd : (unattemptedIds tbl).Nodup := by
    have hsub0 : (List.filter (fun r => !r.attempted) tbl).Sublist tbl :=
      List.filter_sublist tbl
    have hsub : (unattemptedIds tbl).Sublist (tbl.map (fun r => r.id)) := by
      unfold unattemptedIds
      exact List.Sublist.map (fun r => r.id) hsub0
    exact hnd.sublist hsub
  have hselnd : (selectUnprocessed tbl).Nodup :=
    ((sortAsc_perm (unattemptedIds tbl)).nodup_iff).mpr hUnd
  have hsel : selectUnprocessed tbl = sortAsc (unattemptedIds tbl) := rfl
  have hkill : workerRunKilled tbl outcome k
      = List.foldl markAttempted tbl ((selectUnprocessed tbl).take k) :=
    workerKillGo_all_ok outcome hok k (selectUnprocessed tbl) tbl
  have hselect : selectUnprocessed (workerRunKilled tbl outcome k)
      = (selectUnprocessed tbl).drop k := by
    rw [hkill]
    show sortAsc (unattemptedIds (List.foldl markAttempted tbl
      ((selectUnprocessed tbl).take k))) = (selectUnprocessed tbl).drop k
    rw [unattemptedIds_markMany, sortAsc_filter_comm, ← hsel]
    exact nodup_filter_not_take (selectUnprocessed tbl) k hselnd
  have hproc : (workerRun (workerRunKilled tbl outcome k) outcome).processedIds
      = (selectUnprocessed tbl).drop k := by
    rw [workerRun_processedIds_all_ok _ outcome hok, hselect]
  refine ⟨hselect, hproc, List.length_drop k _, ?_, ?_⟩
  · rw [hproc]
    exact List.Pairwise.sublist (List.drop_sublist k _) (sortAsc_sorted _)
  · intro x hx
    rw [hproc]
    intro hdrop
    exact List.disjoint_take_drop hselnd (Nat.le_refl k) hx hdrop

/-- Witness for C8 at a concrete table, kill point and oracle. -/
theorem C8_worker_resumability_witness :
    selectUnprocessed (workerRunKilled wTbl3 (fun _ => .ok 0) 1)
      = (selectUnprocessed wTbl3).drop 1 ∧
    (workerRun (workerRunKilled wTbl3 (fun _ => .ok 0) 1) (fun _ => .ok 0)).processedIds
      = (selectUnprocessed wTbl3).drop 1 ∧
    ((selectUnprocessed wTbl3).drop 1).length = (selectUnprocessed wTbl3).length - 1 ∧
    List.Sorted (fun a b => a ≤ b)
      ((workerRun (workerRunKilled wTbl3 (fun _ => .ok 0) 1)
        (fun _ => .ok 0)).processedIds) ∧
    (∀ x ∈ (selectUnprocessed wTbl3).take 1,
      x ∉ (workerRun (workerRunKilled wTbl3 (fun _ => .ok 0) 1)
        (fun _ => .ok 0)).processedIds) :=
  C8_worker_resumability wTbl3 (fun _ => .ok 0) 1 (by decide) (fun _ => ⟨0, rfl⟩)

end SoloSilo
